import Mathlib

/-!
# Verification of `django-extended-choices` core semantics

Shallow embedding of the `Choices` collection machinery from
`extended_choices/choices.py`, `extended_choices/helpers.py` and
`extended_choices/fields.py`.

Python values that can appear as constants, stored values, displays or
attribute payloads are modelled by `PyVal`.  Dictionaries are modelled as
insertion-ordered association lists.  Object identity of `ChoiceEntry`
instances (needed for the entry-sharing guarantees of subsets) is modelled
by a numeric `eid` field: the construction code allocates fresh ids, so two
entries are the same Python object exactly when their model values
(including `eid`) coincide.
-/

namespace ExtendedChoices

/-- Scalar Python values (payloads of containers). -/
inductive PyScalar where
  | s (x : String)
  | i (n : Int)
  deriving DecidableEq, Repr

/-- Python values used by the library: strings, integers, `None`,
lists (unhashable) and dict-like mappings (unhashable), the latter two
with scalar payloads, which is all the library ever stores in them. -/
inductive PyVal where
  | str (s : String)
  | int (n : Int)
  | pynone
  | pylist (xs : List PyScalar)
  | pymap (kvs : List (String × PyScalar))
  deriving DecidableEq, Repr

/-- Whether a value can be used as a Python dict key / set member. -/
def PyVal.hashable : PyVal → Bool
  | .pylist _ => false
  | .pymap _ => false
  | _ => true

/-- Python exceptions raised by the library, with the messages of the
`raise` sites (truncated before interpolated data). -/
inductive PyErr where
  | valueError (msg : String)
  | typeError (msg : String)
  | assertionError (msg : String)
  | keyError
  | attributeError
  | runtimeError (msg : String)
  | validationError (code : String)
  deriving DecidableEq, Repr

/-- Model of `helpers.ChoiceEntry`: a 3-tuple `(constant, value, display)`
plus an optional attributes mapping.  The `eid` field models Python object
identity (fresh ids are allocated at construction). -/
structure ChoiceEntry where
  eid : Nat
  constant : PyVal
  value : PyVal
  display : PyVal
  attributes : Option (List (String × PyScalar))
  deriving DecidableEq, Repr

/-- `ChoiceEntry.choice`: the `(value, display)` pair as expected by django. -/
def ChoiceEntry.choice (e : ChoiceEntry) : PyVal × PyVal := (e.value, e.display)

/-- The underlying 3-tuple content of a `ChoiceEntry` (the entry behaves as
the plain tuple `(constant, value, display)` for equality purposes). -/
def ChoiceEntry.asTuple (e : ChoiceEntry) : List PyVal := [e.constant, e.value, e.display]

/-- Second half of `ChoiceEntry.__new__`: build the three choice
attributes, raising `ValueError` if any of the three canonical fields is
`None` (`ChoiceEntry._get_choice_attribute`), in the order constant,
value, display. -/
def ChoiceEntry.fields (eid : Nat) (c v d : PyVal)
    (attributes : Option (List (String × PyScalar))) : Except PyErr ChoiceEntry :=
  if c = .pynone then
    .error (PyErr.valueError "Using `None` in a `Choices` object is not supported")
  else if v = .pynone then
    .error (PyErr.valueError "Using `None` in a `Choices` object is not supported")
  else if d = .pynone then
    .error (PyErr.valueError "Using `None` in a `Choices` object is not supported")
  else
    .ok { eid := eid, constant := c, value := v, display := d, attributes := attributes }

/-- Model of `ChoiceEntry.__new__`: check the arity (3 or 4) and the
optional 4th element (must be a mapping or `None`; a non-empty mapping
must not define the reserved keys `constant`/`value`/`display`), then
build the fields via `ChoiceEntry.fields`. -/
def ChoiceEntry.make (eid : Nat) (t : List PyVal) : Except PyErr ChoiceEntry :=
  match t with
  | [c, v, d] => ChoiceEntry.fields eid c v d none
  | [c, v, d, a] =>
    match a with
    | .pynone => ChoiceEntry.fields eid c v d none
    | .pymap kvs =>
      if ¬ kvs.isEmpty ∧
          kvs.any (fun kv => kv.1 = "constant" ∨ kv.1 = "value" ∨ kv.1 = "display") then
        .error (PyErr.assertionError "Additional attributes cannot contain a reserved name")
      else
        ChoiceEntry.fields eid c v d (some kvs)
    | _ => .error (PyErr.assertionError "Last argument must be a dict-like object")
  | _ => .error (PyErr.assertionError "Invalid number of entries")

/-- Insertion-ordered association-list read, modelling Python dict lookup. -/
def assocGet {α β : Type} [DecidableEq α] (m : List (α × β)) (k : α) : Option β :=
  match m with
  | [] => none
  | (k', v) :: rest => if k' = k then some v else assocGet rest k

/-- Insertion-ordered association-list write, modelling Python dict
assignment: an existing key keeps its position and gets the new value, a
fresh key is appended at the end. -/
def assocSet {α β : Type} [DecidableEq α] (m : List (α × β)) (k : α) (v : β) :
    List (α × β) :=
  match m with
  | [] => [(k, v)]
  | (k', v') :: rest => if k' = k then (k, v) :: rest else (k', v') :: assocSet rest k v

/-- The `dict_class` constructor option (`dict` vs `collections.OrderedDict`);
both preserve insertion order in the model, the tag is kept for the
snapshot/restore contract. -/
inductive DictClass where
  | std
  | ordered
  deriving DecidableEq, Repr

/-- Names that exist as attributes on every fresh `Choices` instance,
answering `hasattr`/`getattr` before any constant or subset is added: the
library's own methods and bookkeeping fields plus everything inherited
from `list` and `object` (`Choices` is a `list` subclass), as resolved by
the CPython 3 runtime the test-suite runs under. -/
def baseAttrs : List String :=
  ["ChoiceEntryClass", "dict_class", "entries", "subsets", "constants", "values",
   "displays", "_mutable", "choices", "add_choices", "_convert_choices",
   "extract_subset", "add_subset", "for_constant", "for_value", "for_display",
   "has_constant", "has_value", "has_display",
   "append", "clear", "copy", "count", "extend", "index", "insert", "pop",
   "remove", "reverse", "sort",
   "__add__", "__class__", "__class_getitem__", "__contains__", "__delattr__",
   "__delitem__", "__dict__", "__dir__", "__doc__", "__eq__", "__format__",
   "__ge__", "__getattribute__", "__getitem__", "__getstate__", "__gt__",
   "__hash__", "__iadd__", "__imul__", "__init__", "__init_subclass__",
   "__iter__", "__le__", "__len__", "__lt__", "__module__", "__mul__",
   "__ne__", "__new__", "__reduce__", "__reduce_ex__", "__repr__",
   "__reversed__", "__rmul__", "__setattr__", "__setitem__", "__sizeof__",
   "__str__", "__subclasshook__", "__weakref__"]

/-- The per-instance state of a `Choices` object, without the subset
attributes (those live in `Choices`, the top-level wrapper, below):
the underlying `list` content (`(value, display)` pairs), the `entries`
list, the `subsets` name list, the three lookup dicts, the set of names
answering `hasattr`, the `dict_class` option, the `_mutable` flag, and the
id supply used to model object identity of created entries. -/
structure ChoicesData where
  pairs : List (PyVal × PyVal)
  entries : List ChoiceEntry
  subsets : List String
  constants : List (PyVal × ChoiceEntry)
  values : List (PyVal × ChoiceEntry)
  displays : List (PyVal × ChoiceEntry)
  attrNames : List String
  dictClass : DictClass
  mutable : Bool
  nextId : Nat
  deriving DecidableEq, Repr

/-- A fresh, empty `Choices` state as set up at the top of
`Choices.__init__` (before `add_choices` runs; `_mutable` is `True` at
that point). -/
def ChoicesData.empty (dc : DictClass) (startId : Nat) : ChoicesData :=
  { pairs := [], entries := [], subsets := [], constants := [], values := [],
    displays := [], attrNames := baseAttrs, dictClass := dc, mutable := true,
    nextId := startId }

/-- An element of the `*choices` argument of `add_choices` /
`_convert_choices`: either a raw tuple or an already-built `ChoiceEntry`
(the latter is how subsets share entries with their parent). -/
inductive BatchItem where
  | tup (t : List PyVal)
  | entry (e : ChoiceEntry)
  deriving DecidableEq, Repr

/-- `c[0]` for a batch item (`IndexError` on an empty tuple). -/
def BatchItem.first : BatchItem → Except PyErr PyVal
  | .tup [] => .error (PyErr.typeError "IndexError: tuple index out of range")
  | .tup (x :: _) => .ok x
  | .entry e => .ok e.constant

/-- `c[1]` for a batch item (`IndexError` on a tuple shorter than 2). -/
def BatchItem.second : BatchItem → Except PyErr PyVal
  | .tup (_ :: x :: _) => .ok x
  | .tup _ => .error (PyErr.typeError "IndexError: tuple index out of range")
  | .entry e => .ok e.value

/-- Map an item projection over a batch, stopping at the first raised
exception (Python list-comprehension semantics). -/
def batchProj (f : BatchItem → Except PyErr PyVal) (batch : List BatchItem) :
    Except PyErr (List PyVal) :=
  match batch with
  | [] => .ok []
  | item :: rest =>
    match f item with
    | .error e => .error e
    | .ok x =>
      match batchProj f rest with
      | .ok xs => .ok (x :: xs)
      | .error e => .error e

/-- `[c[0] for c in choices]`. -/
def batchFirsts (batch : List BatchItem) : Except PyErr (List PyVal) :=
  batchProj BatchItem.first batch

/-- `[c[1] for c in choices]`. -/
def batchSeconds (batch : List BatchItem) : Except PyErr (List PyVal) :=
  batchProj BatchItem.second batch

/-- `xs.count x` for Python lists (equality-based, no hashing needed). -/
def pyCount (xs : List PyVal) (x : PyVal) : Nat := (xs.filter (· = x)).length

/-- The `(value, display)` projection of a raw choice tuple (its elements
at positions 1 and 2). -/
def rawPair (t : List PyVal) : PyVal × PyVal :=
  (t.getD 1 .pynone, t.getD 2 .pynone)

/-- One iteration of the final loop of `Choices._convert_choices`, given the
already-converted `ChoiceEntry`: append `choice_entry.choice` to the
underlying list, append the entry to `self.entries`, `setattr` the constant
(a `TypeError` if the constant is not a string; the two appends have already
happened at that point), then fill the three lookup dicts (a `TypeError`
on an unhashable dict key, later ones not reached). -/
def ChoicesData.addEntry (d : ChoicesData) (ce : ChoiceEntry) :
    ChoicesData × Option PyErr :=
  let d1 := { d with pairs := d.pairs ++ [ce.choice] }
  let d2 := { d1 with entries := d1.entries ++ [ce] }
  match ce.constant with
  | .str cname =>
    let d3 := { d2 with
      attrNames := if d2.attrNames.contains cname then d2.attrNames
                   else d2.attrNames ++ [cname] }
    let d4 := { d3 with constants := assocSet d3.constants ce.constant ce }
    if ce.value.hashable then
      let d5 := { d4 with values := assocSet d4.values ce.value ce }
      if ce.display.hashable then
        ({ d5 with displays := assocSet d5.displays ce.display ce }, none)
      else
        (d5, some (PyErr.typeError "unhashable type"))
    else
      (d4, some (PyErr.typeError "unhashable type"))
  | _ => (d2, some (PyErr.typeError "attribute name must be string"))

/-- The final loop of `Choices._convert_choices`: convert each batch item to
a `ChoiceEntry` if it is not one already (allocating a fresh object id),
then register it; an exception leaves the already-registered prefix in
place. -/
def ChoicesData.convertLoop (d : ChoicesData) (items : List BatchItem) :
    ChoicesData × Option PyErr :=
  match items with
  | [] => (d, none)
  | item :: rest =>
    match item with
    | .entry ce =>
      match d.addEntry ce with
      | (d', none) => d'.convertLoop rest
      | (d', some e) => (d', some e)
    | .tup t =>
      match ChoiceEntry.make d.nextId t with
      | .error e => (d, some e)
      | .ok ce =>
        match ChoicesData.addEntry { d with nextId := d.nextId + 1 } ce with
        | (d', none) => d'.convertLoop rest
        | (d', some e) => (d', some e)

/-- The constant-level validation checks of `Choices._convert_choices`, in
source order: duplicate constants within the batch; the `set(constants)`
construction (a `TypeError` on an unhashable constant); collision with an
existing constant; the `hasattr` calls (a `TypeError` on a non-string
constant); collision with an existing attribute name.  Returns the first
raised exception, if any. -/
def ChoicesData.constantChecks (d : ChoicesData) (constants : List PyVal) :
    Option PyErr :=
  if (constants.filter (fun c => pyCount constants c > 1)) ≠ [] then
    some (PyErr.valueError
      "You cannot declare two constants with the same constant name")
  else if constants.any (fun c => ¬ c.hashable) then
    some (PyErr.typeError "unhashable type")
  else if (constants.filter (fun c => (assocGet d.constants c).isSome)) ≠ [] then
    some (PyErr.valueError "You cannot add existing constants")
  else if constants.any (fun c => match c with | .str _ => false | _ => true) then
    some (PyErr.typeError "hasattr: attribute name must be a string")
  else if (constants.filter
      (fun c => match c with | .str s => d.attrNames.contains s | _ => false)) ≠ [] then
    some (PyErr.valueError
      "You cannot add constants that already exists as attributes")
  else
    none

/-- The value-level validation checks of `Choices._convert_choices`, in
source order: duplicate values within the batch; the `set(values)`
construction (whose `TypeError` on an unhashable value is converted to the
dedicated `ValueError`); collision with an existing value. -/
def ChoicesData.valueChecks (d : ChoicesData) (values : List PyVal) : Option PyErr :=
  if (values.filter (fun v => pyCount values v > 1)) ≠ [] then
    some (PyErr.valueError "You cannot declare two choices with the same name")
  else if values.any (fun v => ¬ v.hashable) then
    some (PyErr.valueError "One value cannot be used in")
  else if (values.filter (fun v => (assocGet d.values v).isSome)) ≠ [] then
    some (PyErr.valueError "You cannot add existing values")
  else
    none

/-- Model of `Choices._convert_choices`: compute the constants (Python
raises here on too-short tuples), run the constant-level checks, compute
the values, run the value-level checks, then run the conversion loop.
Returns the state after the call (unchanged unless the loop ran) and
either the list of the new constants (`return constants`) or the raised
exception. -/
def ChoicesData.convertChoices (d : ChoicesData) (batch : List BatchItem) :
    ChoicesData × Except PyErr (List PyVal) :=
  match batchFirsts batch with
  | .error e => (d, .error e)
  | .ok constants =>
    match d.constantChecks constants with
    | some e => (d, .error e)
    | none =>
      match batchSeconds batch with
      | .error e => (d, .error e)
      | .ok values =>
        match d.valueChecks values with
        | some e => (d, .error e)
        | none =>
          match d.convertLoop batch with
          | (d', none) => (d', .ok constants)
          | (d', some e) => (d', .error e)

/-- A full `Choices` object: its own state plus the subset collections
attached as attributes by `add_subset` (a subset is itself a `Choices`
instance; the ones created by this library never carry subsets of their
own, so they are represented by their `ChoicesData`). -/
structure Choices where
  d : ChoicesData
  subsetMap : List (String × ChoicesData)
  deriving DecidableEq, Repr

/-- View a subset (or any bare state) as a `Choices` object with no subset
attributes, e.g. to call `add_choices` on it. -/
def Choices.ofData (d : ChoicesData) : Choices := { d := d, subsetMap := [] }

/-- Model of `Choices.extract_subset`: the missing-constant check starts
with `set(constants)`, whose `TypeError` on an unhashable requested name
propagates first; then every requested constant must exist (`ValueError`
naming the missing ones otherwise); finally the shared `ChoiceEntry`
objects are collected and a new `Choices` instance is built from them with
the same `dict_class` and `mutable=False`.  The parent is never modified;
a failure inside the fresh instance's construction (e.g. a duplicated
requested constant) discards it. -/
def ChoicesData.extractSubset (d : ChoicesData) (constants : List PyVal) :
    Except PyErr ChoicesData :=
  if constants.any (fun c => ¬ c.hashable) then
    .error (PyErr.typeError "unhashable type")
  else if (constants.filter (fun c => (assocGet d.constants c).isNone)) ≠ [] then
    .error (PyErr.valueError
      "All constants in subsets should be in parent choice. Missing constants")
  else
    let choiceEntries := constants.filterMap (fun c => assocGet d.constants c)
    let fresh := ChoicesData.empty d.dictClass 0
    match fresh.convertChoices (choiceEntries.map BatchItem.entry) with
    | (sub, .ok _) => .ok { sub with mutable := false }
    | (_, .error e) => .error e

/-- Model of `Choices.add_subset`: refuse a name that is already an
attribute, extract the subset, then attach it (`setattr`) and record the
name in `self.subsets`. -/
def Choices.addSubset (c : Choices) (name : String) (constants : List PyVal) :
    Except PyErr Choices :=
  if c.d.attrNames.contains name then
    .error (PyErr.valueError "Cannot use this as a subset name. It is already an attribute")
  else
    match c.d.extractSubset constants with
    | .error e => .error e
    | .ok sub =>
      .ok { d := { c.d with
                   attrNames := c.d.attrNames ++ [name],
                   subsets := c.d.subsets ++ [name] },
            subsetMap := c.subsetMap ++ [(name, sub)] }

/-- Model of `Choices.add_choices`.  The optional leading string argument
(the Python code checks `choices[0]` for a string different from the
`_NO_SUBSET_NAME_` sentinel) is modelled by `nameFirst`; the `name` keyword
argument by `nameKw`.  Order as in the source: the mutability guard first,
then the name-conflict check, then `_convert_choices` (whose partial state
is kept when it raises), then `add_subset` when a subset name was given. -/
def Choices.addChoices (c : Choices) (nameFirst : Option String)
    (batch : List BatchItem) (nameKw : Option String) : Choices × Option PyErr :=
  if ¬ c.d.mutable then
    (c, some (PyErr.runtimeError "This Choices instance cannot be updated"))
  else
    match nameFirst, nameKw with
    | some _, some _ =>
      (c, some (PyErr.valueError
        "The name of the subset cannot be defined as the first argument and also as a named argument"))
    | _, _ =>
      let subsetName := nameFirst.orElse (fun _ => nameKw)
      match c.d.convertChoices batch with
      | (d', .error e) => ({ c with d := d' }, some e)
      | (d', .ok constants) =>
        match subsetName with
        | none => ({ c with d := d' }, none)
        | some nm =>
          match Choices.addSubset { c with d := d' } nm constants with
          | .ok c' => (c', none)
          | .error e => ({ c with d := d' }, some e)

/-- Model of `Choices.__init__`: start from the empty state (mutable while
the initial batch is added), run `add_choices` with the optional `name`
keyword, then set `_mutable` to the requested flag.  An error during the
initial `add_choices` propagates out of the constructor (the partially
built object is discarded by Python, but the state at the raise point is
returned for completeness). -/
def Choices.init (startId : Nat) (choices : List BatchItem) (nameKw : Option String)
    (dc : DictClass) (mutFlag : Bool) : Choices × Option PyErr :=
  let c0 := Choices.ofData (ChoicesData.empty dc startId)
  match c0.addChoices none choices nameKw with
  | (c1, none) => ({ c1 with d := { c1.d with mutable := mutFlag } }, none)
  | (c1, some e) => (c1, some e)

/-- Model of `Choices.for_constant`: `self.constants[constant]`, a
`KeyError` when absent (constants are strings, hence hashable). -/
def ChoicesData.for_constant (d : ChoicesData) (constant : PyVal) :
    Except PyErr ChoiceEntry :=
  if constant.hashable then
    match assocGet d.constants constant with
    | some e => .ok e
    | none => .error PyErr.keyError
  else .error (PyErr.typeError "unhashable type")

/-- Model of `Choices.for_value`: `self.values[value]` (`KeyError` when
absent, `TypeError` on an unhashable key). -/
def ChoicesData.for_value (d : ChoicesData) (value : PyVal) :
    Except PyErr ChoiceEntry :=
  if value.hashable then
    match assocGet d.values value with
    | some e => .ok e
    | none => .error PyErr.keyError
  else .error (PyErr.typeError "unhashable type")

/-- Model of `Choices.for_display`: `self.displays[display]`. -/
def ChoicesData.for_display (d : ChoicesData) (display : PyVal) :
    Except PyErr ChoiceEntry :=
  if display.hashable then
    match assocGet d.displays display with
    | some e => .ok e
    | none => .error PyErr.keyError
  else .error (PyErr.typeError "unhashable type")

/-- Model of `Choices.has_constant`: `constant in self.constants`. -/
def ChoicesData.has_constant (d : ChoicesData) (constant : PyVal) :
    Except PyErr Bool :=
  if constant.hashable then .ok (assocGet d.constants constant).isSome
  else .error (PyErr.typeError "unhashable type")

/-- Model of `Choices.has_value`: `value in self.values`. -/
def ChoicesData.has_value (d : ChoicesData) (value : PyVal) : Except PyErr Bool :=
  if value.hashable then .ok (assocGet d.values value).isSome
  else .error (PyErr.typeError "unhashable type")

/-- Model of `Choices.has_display`: `display in self.displays`. -/
def ChoicesData.has_display (d : ChoicesData) (display : PyVal) : Except PyErr Bool :=
  if display.hashable then .ok (assocGet d.displays display).isSome
  else .error (PyErr.typeError "unhashable type")

/-- Model of `Choices.__contains__`: delegates to `has_value`. -/
def ChoicesData.containsPy (d : ChoicesData) (item : PyVal) : Except PyErr Bool :=
  d.has_value item

/-- The right-hand side of a `Choices` equality test: a Python tuple or
list of tuples (each inner tuple given by its element list), or another
`Choices` instance. -/
inductive EqOther where
  | pyTuple (rows : List (List PyVal))
  | pyList (rows : List (List PyVal))
  | coll (c2 : Choices)
  deriving Repr

/-- The sequence of rows read from the right-hand side of `==`:
indexing into another `Choices` instance yields its underlying list
content, i.e. the `(value, display)` pairs. -/
def EqOther.rows : EqOther → List (List PyVal)
  | .pyTuple rows => rows
  | .pyList rows => rows
  | .coll c2 => c2.d.pairs.map (fun p => [p.1, p.2])

/-- Model of `Choices.__eq__`: convert a tuple argument to a list, then, if
the argument is non-empty and its first element has length 3, compare
`self.entries` against it (each entry comparing as its plain 3-tuple);
otherwise fall back to `list.__eq__`, i.e. compare the underlying
`(value, display)` pairs. -/
def Choices.eqPy (c : Choices) (other : EqOther) : Bool :=
  let rows := other.rows
  match rows with
  | [] => decide (c.d.pairs.map (fun p => [p.1, p.2]) = ([] : List (List PyVal)))
  | r0 :: _ =>
    if r0.length = 3 then decide (c.d.entries.map ChoiceEntry.asTuple = rows)
    else decide (c.d.pairs.map (fun p => [p.1, p.2]) = rows)

/-- The values reachable through `getattr` on a `Choices` instance: the
typed stored value of a constant, an attached subset, or one of the base
bookkeeping attributes / methods. -/
inductive AttrVal where
  | choiceValue (v : PyVal)
  | subset (s : ChoicesData)
  | base (name : String)
  deriving DecidableEq, Repr

/-- Attribute resolution on a `Choices` instance: constants resolve to
their (typed) stored value, subset names to the attached subset, and the
base attributes — including the methods inherited from `list` and
`object`, see `baseAttrs` — to themselves; anything else is an
`AttributeError`. -/
def Choices.getattrPy (c : Choices) (name : String) : Option AttrVal :=
  match assocGet c.d.constants (.str name) with
  | some e => some (.choiceValue e.value)
  | none =>
    match assocGet c.subsetMap name with
    | some s => some (.subset s)
    | none => if baseAttrs.contains name then some (.base name) else none

/-- The submitted value of `NamedExtendedChoiceFormField.to_python`:
`None`, a string, or a non-string value. -/
inductive FormInput where
  | pynone
  | strv (s : String)
  | nonStr (v : PyVal)
  deriving Repr

/-- Model of `NamedExtendedChoiceFormField.to_python`: `None` passes
through; a non-string raises a `ValidationError` with code
`invalid-choice-type`; a string is resolved with `getattr` on the choices
object, an `AttributeError` being converted to a `ValidationError` with
code `non-existing-choice`. -/
def toPython (c : Choices) (input : FormInput) : Except PyErr (Option AttrVal) :=
  match input with
  | .pynone => .ok none
  | .nonStr _ => .error (PyErr.validationError "invalid-choice-type")
  | .strv s =>
    match c.getattrPy s with
    | some a => .ok (some a)
    | none => .error (PyErr.validationError "non-existing-choice")

/-- One raw `(constant, value, display, attributes)` tuple recorded by
`Choices.__reduce__` for one entry (each field's `original_value`).  The
class component of the reducer is fixed to the base `Choices` class in
this model. -/
structure SnapEntry where
  constant : PyVal
  value : PyVal
  display : PyVal
  attributes : Option (List (String × PyScalar))
  deriving DecidableEq, Repr

/-- The full reducer payload of `Choices.__reduce__`: the recorded raw
entries, the recorded `(subset_name, constants)` pairs, and the
constructor options (`dict_class`, `_mutable`). -/
structure Snapshot where
  choices : List SnapEntry
  subsets : List (String × List PyVal)
  dictClass : DictClass
  mutable : Bool
  deriving DecidableEq, Repr

/-- The raw data recorded for one entry by the reducer. -/
def ChoiceEntry.snap (e : ChoiceEntry) : SnapEntry :=
  { constant := e.constant, value := e.value, display := e.display,
    attributes := e.attributes }

/-- Model of `Choices.__reduce__`: record each entry's original raw values
and attributes, and for each subset name the keys of the subset's
`constants` dict (their original values), plus `dict_class` and
`_mutable`. -/
def Choices.snapshot (c : Choices) : Snapshot :=
  { choices := c.d.entries.map ChoiceEntry.snap,
    subsets := c.d.subsets.map (fun name =>
      (name, match assocGet c.subsetMap name with
             | some s => s.constants.map Prod.fst
             | none => [])),
    dictClass := c.d.dictClass,
    mutable := c.d.mutable }

/-- The choice tuple passed back to the constructor when restoring: the
4-tuple recorded by the reducer, with an absent attributes dict restored
as `None`. -/
def snapTup (t : SnapEntry) : List PyVal :=
  [t.constant, t.value, t.display,
   match t.attributes with
   | none => PyVal.pynone
   | some kvs => PyVal.pymap kvs]

/-- Replay of a sequence of `add_subset` calls, in order, stopping at the
first raised exception. -/
def Choices.addSubsetsSeq (c : Choices) (subs : List (String × List PyVal)) :
    Choices × Option PyErr :=
  match subs with
  | [] => (c, none)
  | (nm, cs) :: rest =>
    match c.addSubset nm cs with
    | .ok c' => c'.addSubsetsSeq rest
    | .error e => (c, some e)

/-- Model of `create_choice` applied to a snapshot: construct the
collection from the recorded raw tuples with the recorded options, then
replay `add_subset` for each recorded subset, in order. -/
def restore (s : Snapshot) : Choices × Option PyErr :=
  match Choices.init 0 (s.choices.map (fun t => BatchItem.tup (snapTup t))) none
      s.dictClass s.mutable with
  | (c, some e) => (c, some e)
  | (c, none) => c.addSubsetsSeq s.subsets

/-- `isinstance(x, Mapping)`. -/
def PyVal.isMapping : PyVal → Bool
  | .pymap _ => true
  | _ => false

/-- Python `str.lower()` (ASCII, which is all the library's transforms are
used on). -/
def pyLower (s : String) : String := String.mk (s.data.map Char.toLower)

/-- Python `str.replace('_', ' ')`. -/
def pyReplaceUnderscore (s : String) : String :=
  String.mk (s.data.map (fun ch => if ch = '_' then ' ' else ch))

/-- Python `str.capitalize()`: first character upper-cased, the rest
lower-cased. -/
def pyCapitalize (s : String) : String :=
  match s.data with
  | [] => ""
  | ch :: rest => String.mk (Char.toUpper ch :: rest.map Char.toLower)

/-- The default `AutoDisplayChoices.display_transform`:
`lambda const: const.lower().replace('_', ' ').capitalize()`. -/
def displayTransformDefault (s : String) : String :=
  pyCapitalize (pyReplaceUnderscore (pyLower s))

/-- The default `AutoChoices.value_transform`: `lambda const: const.lower()`. -/
def valueTransformDefault (s : String) : String := pyLower s

/-- Second half of the `AutoDisplayChoices._convert_choices` per-tuple
normalization, once a trailing attributes mapping has been split off: take
the constant and the stored value, then the given display if one remains,
otherwise the display transform applied to the constant. -/
def adNormalizeRest (transform : String → String) (rest attrs : List PyVal) :
    Except PyErr (List PyVal) :=
  match rest with
  | c :: v :: restTail =>
    match restTail with
    | dv :: _ => .ok ([c, v, dv] ++ attrs)
    | [] =>
      match c with
      | .str s => .ok ([c, v, .str (transform s)] ++ attrs)
      | _ => .error PyErr.attributeError
  | _ => .error (PyErr.typeError "IndexError: pop from empty list")

/-- The per-tuple normalization of `AutoDisplayChoices._convert_choices`
(for a non-`ChoiceEntry` item): check the arity (2 to 4), split off a
trailing attributes mapping (a trailing `None` in a 4-tuple is dropped),
then hand over to `adNormalizeRest`. -/
def adNormalize (transform : String → String) (t : List PyVal) :
    Except PyErr (List PyVal) :=
  if ¬ (2 ≤ t.length ∧ t.length ≤ 4) then
    .error (PyErr.assertionError "Invalid number of entries")
  else
    let last := t.getLastD .pynone
    if t.length > 2 ∧ last.isMapping then
      adNormalizeRest transform t.dropLast [last]
    else if t.length = 4 then
      if last = .pynone then adNormalizeRest transform t.dropLast []
      else .error (PyErr.assertionError "Last argument must be a dict-like object")
    else
      adNormalizeRest transform t []

/-- Second half of the `AutoChoices._convert_choices` per-tuple
normalization, once a trailing attributes mapping has been split off: take
the constant, then the given stored value and display if present; a
missing or `None` stored value is replaced by the value transform applied
to the constant. -/
def acNormalizeRest (vTransform : String → String) (rest attrs : List PyVal) :
    Except PyErr (List PyVal) :=
  match rest with
  | c :: restTail =>
    let vd : PyVal × List PyVal :=
      match restTail with
      | [] => (PyVal.pynone, [])
      | [v] => (v, [])
      | v :: dv :: _ => (v, [dv])
    if vd.1 = .pynone then
      match c with
      | .str s => .ok ([c, .str (vTransform s)] ++ vd.2 ++ attrs)
      | _ => .error PyErr.attributeError
    else
      .ok ([c, vd.1] ++ vd.2 ++ attrs)
  | [] => .error (PyErr.typeError "IndexError: pop from empty list")

/-- The per-tuple normalization of `AutoChoices._convert_choices` (for a
non-`ChoiceEntry`, non-sentinel item, already turned into a list): check
the arity (1 to 4), split off a trailing attributes mapping, then hand
over to `acNormalizeRest`. -/
def acNormalize (vTransform : String → String) (t : List PyVal) :
    Except PyErr (List PyVal) :=
  if ¬ (1 ≤ t.length ∧ t.length ≤ 4) then
    .error (PyErr.assertionError "Invalid number of entries")
  else
    let last := t.getLastD .pynone
    if t.length > 1 ∧ last.isMapping then
      acNormalizeRest vTransform t.dropLast [last]
    else if t.length = 4 then
      if last = .pynone then acNormalizeRest vTransform t.dropLast []
      else .error (PyErr.assertionError "Last argument must be a dict-like object")
    else
      acNormalizeRest vTransform t []

/-- The display-derivation pass of `AutoDisplayChoices._convert_choices`
over a whole batch (`ChoiceEntry` items pass through untouched). -/
def adConvertBatch (transform : String → String) (batch : List BatchItem) :
    Except PyErr (List BatchItem) :=
  match batch with
  | [] => .ok []
  | .entry e :: rest =>
    match adConvertBatch transform rest with
    | .ok b => .ok (BatchItem.entry e :: b)
    | .error er => .error er
  | .tup t :: rest =>
    match adNormalize transform t with
    | .error er => .error er
    | .ok t' =>
      match adConvertBatch transform rest with
      | .ok b => .ok (BatchItem.tup t' :: b)
      | .error er => .error er

/-- An element of the `*choices` argument of the `AutoChoices` variant,
which additionally accepts bare strings (and the internal
`_NO_SUBSET_NAME_` sentinel). -/
inductive AutoItem where
  | strItem (s : String)
  | tupItem (t : List PyVal)
  | entryItem (e : ChoiceEntry)
  deriving DecidableEq, Repr

/-- The value-derivation pass of `AutoChoices._convert_choices` over a
whole batch: sentinel strings are dropped, bare strings become 1-tuples,
`ChoiceEntry` items pass through. -/
def acConvertBatch (vTransform : String → String) (items : List AutoItem) :
    Except PyErr (List BatchItem) :=
  match items with
  | [] => .ok []
  | .entryItem e :: rest =>
    match acConvertBatch vTransform rest with
    | .ok b => .ok (BatchItem.entry e :: b)
    | .error er => .error er
  | .strItem s :: rest =>
    if s = "__NO_SUBSET_NAME__" then acConvertBatch vTransform rest
    else
      match acNormalize vTransform [.str s] with
      | .error er => .error er
      | .ok t =>
        match acConvertBatch vTransform rest with
        | .ok b => .ok (BatchItem.tup t :: b)
        | .error er => .error er
  | .tupItem t :: rest =>
    match acNormalize vTransform t with
    | .error er => .error er
    | .ok t' =>
      match acConvertBatch vTransform rest with
      | .ok b => .ok (BatchItem.tup t' :: b)
      | .error er => .error er

/-- `AutoDisplayChoices._convert_choices`: normalize the batch (computing
missing displays), then run the base `_convert_choices`. -/
def ChoicesData.adConvertChoices (d : ChoicesData) (displayT : String → String)
    (batch : List BatchItem) : ChoicesData × Except PyErr (List PyVal) :=
  match adConvertBatch displayT batch with
  | .error e => (d, .error e)
  | .ok b => d.convertChoices b

/-- `AutoChoices._convert_choices`: normalize the batch (computing missing
stored values), then run the `AutoDisplayChoices` stage. -/
def ChoicesData.acConvertChoices (d : ChoicesData) (valueT displayT : String → String)
    (items : List AutoItem) : ChoicesData × Except PyErr (List PyVal) :=
  match acConvertBatch valueT items with
  | .error e => (d, .error e)
  | .ok b => d.adConvertChoices displayT b

/-- A constant key as produced by a successful `_convert_choices` run: a
string that does not collide with the base attributes of the class. -/
def isFreshStrKey : PyVal → Bool
  | .str s => ¬ baseAttrs.contains s
  | _ => false

/-- Invariants maintained by the construction code and relied upon by the
lookup and subset operations: every binding of the `constants` dict maps a
fresh string key to an entry carrying that constant, with a hashable stored
value registered under it in the `values` dict and a hashable display; and
every binding of the `values` dict carries its key as the entry's stored
value.  Decidable, so it can be checked by evaluation on concrete
collections. -/
def ChoicesData.Inv (d : ChoicesData) : Prop :=
  (∀ p ∈ d.constants,
      p.2.constant = p.1 ∧ isFreshStrKey p.1 = true ∧
      p.2.value.hashable = true ∧ assocGet d.values p.2.value = some p.2 ∧
      p.2.display.hashable = true) ∧
  (∀ p ∈ d.values, p.2.value = p.1)

instance (d : ChoicesData) : Decidable d.Inv := by
  unfold ChoicesData.Inv
  infer_instance

/-- The running example collection of the repository's test-suite style:
`Choices(('ONE', 1, 'One'), ('TWO', 2, 'Two'), ('THREE', 3, 'Three'))`. -/
def exampleBatch : List (List PyVal) :=
  [[.str "ONE", .int 1, .str "One"],
   [.str "TWO", .int 2, .str "Two"],
   [.str "THREE", .int 3, .str "Three"]]

/-- The constructed example collection (construction succeeds, as checked
in the theorems below). -/
def exampleC : Choices :=
  (Choices.init 0 (exampleBatch.map BatchItem.tup) none .std true).1

/-- The subset `('ONE', 'THREE')` of the running example. -/
def exampleSub : ChoicesData :=
  (exampleC.d.extractSubset [.str "ONE", .str "THREE"]).toOption.getD
    (ChoicesData.empty .std 0)

/-- The condition under which an attributes option passes the reserved-key
check of `ChoiceEntry.__new__`. -/
def AttrsOk : Option (List (String × PyScalar)) → Prop
  | none => True
  | some kvs =>
    ¬ (¬ kvs.isEmpty ∧
        kvs.any (fun kv => kv.1 = "constant" ∨ kv.1 = "value" ∨ kv.1 = "display") = true)

/-- Field-level conditions under which the per-entry construction and
registration steps cannot raise: a string constant and non-null, hashable
value and display. -/
def cleanFields (c v d : PyVal) : Bool :=
  (match c with | .str _ => true | _ => false) &&
  decide (v ≠ .pynone) && v.hashable && decide (d ≠ .pynone) && d.hashable

/-- Batch items whose conversion inside the loop of `_convert_choices`
cannot raise: a well-formed arity and attributes option, a string constant
and non-null, hashable value and display. -/
def BatchItem.clean : BatchItem → Bool
  | .tup [c, v, d] => cleanFields c v d
  | .tup [c, v, d, .pynone] => cleanFields c v d
  | .tup [c, v, d, .pymap kvs] =>
    !(decide (¬ kvs.isEmpty ∧
        kvs.any (fun kv => kv.1 = "constant" ∨ kv.1 = "value" ∨ kv.1 = "display") = true)) &&
    cleanFields c v d
  | .tup _ => false
  | .entry e => cleanFields e.constant e.value e.display

/-! ## Association-list and list lemmas -/

theorem assocGet_mem {α β : Type} [DecidableEq α] (m : List (α × β)) (k : α) (v : β)
    (h : assocGet m k = some v) : (k, v) ∈ m := by
  induction m with
  | nil => simp [assocGet] at h
  | cons p rest ih =>
    rw [assocGet] at h
    by_cases hk : p.1 = k
    · rw [if_pos hk] at h
      injection h with hv
      exact List.mem_cons.2 (Or.inl (Prod.ext hk.symm hv.symm))
    · rw [if_neg hk] at h
      exact List.mem_cons_of_mem _ (ih h)

theorem assocGet_set_self {α β : Type} [DecidableEq α] (m : List (α × β)) (k : α)
    (v : β) : assocGet (assocSet m k v) k = some v := by
  induction m with
  | nil => simp [assocSet, assocGet]
  | cons p rest ih =>
    rw [assocSet]
    by_cases hk : p.1 = k
    · simp [hk, assocGet]
    · rw [if_neg hk, assocGet, if_neg hk]
      exact ih

theorem assocGet_set_ne {α β : Type} [DecidableEq α] (m : List (α × β)) (k k' : α)
    (v : β) (hne : k ≠ k') : assocGet (assocSet m k v) k' = assocGet m k' := by
  induction m with
  | nil => simp [assocSet, assocGet, hne]
  | cons p rest ih =>
    rw [assocSet]
    by_cases hk : p.1 = k
    · rw [if_pos hk]
      simp [assocGet, hk, hne]
    · rw [if_neg hk, assocGet, assocGet]
      by_cases hk' : p.1 = k'
      · rw [if_pos hk', if_pos hk']
      · rw [if_neg hk', if_neg hk']
        exact ih

theorem assocGet_append {α β : Type} [DecidableEq α] (m₁ m₂ : List (α × β)) (k : α) :
    assocGet (m₁ ++ m₂) k =
      (assocGet m₁ k).rec (assocGet m₂ k) (fun v => some v) := by
  induction m₁ with
  | nil => simp [assocGet]
  | cons p rest ih =>
    rw [List.cons_append, assocGet, assocGet]
    by_cases hk : p.1 = k
    · rw [if_pos hk, if_pos hk]
    · rw [if_neg hk, if_neg hk]
      exact ih

theorem assocSet_forall {α β : Type} [DecidableEq α] (m : List (α × β)) (k : α)
    (v : β) (P : α × β → Prop) (hm : ∀ p ∈ m, P p) (hkv : P (k, v)) :
    ∀ p ∈ assocSet m k v, P p := by
  induction m with
  | nil =>
    intro p hp
    simp only [assocSet, List.mem_singleton] at hp
    exact hp ▸ hkv
  | cons q rest ih =>
    intro p hp
    rw [assocSet] at hp
    by_cases hk : q.1 = k
    · rw [if_pos hk] at hp
      rcases List.mem_cons.1 hp with h | h
      · exact h ▸ hkv
      · exact hm p (List.mem_cons_of_mem _ h)
    · rw [if_neg hk] at hp
      rcases List.mem_cons.1 hp with h | h
      · exact hm p (h ▸ List.mem_cons_self _ _)
      · exact ih (fun q hq => hm q (List.mem_cons_of_mem _ hq)) p h

theorem pyCount_eq_count (xs : List PyVal) (x : PyVal) : pyCount xs x = xs.count x := by
  induction xs with
  | nil => rfl
  | cons y ys ih =>
    rw [pyCount, List.count_cons]
    rw [pyCount] at ih
    by_cases hy : y = x
    · simp [hy, ih]
    · simp only [List.filter_cons]
      have : decide (y = x) = false := by simpa using hy
      simp [this, ih, hy]

/-- The duplicate-detection expression of `_convert_choices`
(`[c for c in xs if xs.count(c) > 1]`) is empty exactly when the list has
no duplicates. -/
theorem filter_dup_eq_nil_iff_nodup (xs : List PyVal) :
    (xs.filter (fun c => pyCount xs c > 1)) = [] ↔ xs.Nodup := by
  rw [List.filter_eq_nil_iff]
  constructor
  · intro h
    rw [List.nodup_iff_count_le_one]
    intro a
    by_contra hgt
    push_neg at hgt
    have ha : a ∈ xs := by
      rw [← List.count_pos_iff]
      omega
    have := h a ha
    rw [pyCount_eq_count] at this
    simp at this
    omega
  · intro h a ha
    have := List.nodup_iff_count_le_one.1 h a
    rw [pyCount_eq_count]
    simp
    omega

/-! ## `ChoiceEntry.make` lemmas -/

theorem fields_ok (eid : Nat) (c v d : PyVal)
    (attrs : Option (List (String × PyScalar))) (e : ChoiceEntry)
    (h : ChoiceEntry.fields eid c v d attrs = .ok e) :
    e = ⟨eid, c, v, d, attrs⟩ ∧ c ≠ .pynone ∧ v ≠ .pynone ∧ d ≠ .pynone := by
  unfold ChoiceEntry.fields at h
  split_ifs at h with h1 h2 h3
  injection h with he
  exact ⟨he.symm, h1, h2, h3⟩

theorem fields_ok_of_checks (eid : Nat) (c v d : PyVal)
    (attrs : Option (List (String × PyScalar)))
    (h1 : c ≠ .pynone) (h2 : v ≠ .pynone) (h3 : d ≠ .pynone) :
    ChoiceEntry.fields eid c v d attrs = .ok ⟨eid, c, v, d, attrs⟩ := by
  unfold ChoiceEntry.fields
  rw [if_neg h1, if_neg h2, if_neg h3]

/-- A successfully created entry records its inputs: its id is the supplied
one, the tuple starts with its constant and value, and its fields passed
the `None` and reserved-key checks. -/
theorem make_ok_facts (eid : Nat) (t : List PyVal) (e : ChoiceEntry)
    (h : ChoiceEntry.make eid t = .ok e) :
    e.eid = eid ∧ e.constant ≠ .pynone ∧ e.value ≠ .pynone ∧ e.display ≠ .pynone ∧
    AttrsOk e.attributes ∧
    BatchItem.first (.tup t) = .ok e.constant ∧
    BatchItem.second (.tup t) = .ok e.value := by
  unfold ChoiceEntry.make at h
  rcases t with _ | ⟨c, _ | ⟨v, _ | ⟨dd, _ | ⟨a, _ | ⟨x, rest⟩⟩⟩⟩⟩
  · cases h
  · cases h
  · cases h
  · obtain ⟨he, h1, h2, h3⟩ := fields_ok _ _ _ _ _ _ h
    subst he
    exact ⟨rfl, h1, h2, h3, trivial, rfl, rfl⟩
  · cases a with
    | pynone =>
      obtain ⟨he, h1, h2, h3⟩ := fields_ok _ _ _ _ _ _ h
      subst he
      exact ⟨rfl, h1, h2, h3, trivial, rfl, rfl⟩
    | pymap kvs =>
      have h' : (if ¬ kvs.isEmpty ∧ kvs.any
              (fun kv => kv.1 = "constant" ∨ kv.1 = "value" ∨ kv.1 = "display") then
            (.error (PyErr.assertionError
              "Additional attributes cannot contain a reserved name") :
              Except PyErr ChoiceEntry)
          else ChoiceEntry.fields eid c v dd (some kvs)) = .ok e := h
      split_ifs at h' with hres
      obtain ⟨he, h1, h2, h3⟩ := fields_ok _ _ _ _ _ _ h'
      subst he
      refine ⟨rfl, h1, h2, h3, ?_, rfl, rfl⟩
      simpa [AttrsOk] using hres
    | str s => cases h
    | int n => cases h
    | pylist xs => cases h
  · cases h

/-- Creating an entry again from its recorded snapshot tuple reproduces it
exactly (same id, i.e. the model of the same object contents). -/
theorem make_snap_roundtrip (eid : Nat) (t : List PyVal) (e : ChoiceEntry)
    (h : ChoiceEntry.make eid t = .ok e) :
    ChoiceEntry.make e.eid (snapTup e.snap) = .ok e := by
  obtain ⟨heid, h1, h2, h3, hattrs, -, -⟩ := make_ok_facts eid t e h
  subst heid
  cases e with
  | mk eid c v dd attrs =>
    cases attrs with
    | none =>
      show ChoiceEntry.make eid [c, v, dd, .pynone] = _
      show ChoiceEntry.fields eid c v dd none = _
      exact fields_ok_of_checks eid c v dd none h1 h2 h3
    | some kvs =>
      show ChoiceEntry.make eid [c, v, dd, .pymap kvs] = _
      rw [show (ChoiceEntry.make eid [c, v, dd, .pymap kvs]) =
          (if ¬ kvs.isEmpty ∧ kvs.any
              (fun kv => kv.1 = "constant" ∨ kv.1 = "value" ∨ kv.1 = "display") then
            .error (PyErr.assertionError
              "Additional attributes cannot contain a reserved name")
          else ChoiceEntry.fields eid c v dd (some kvs)) from rfl]
      rw [if_neg (by simpa [AttrsOk] using hattrs)]
      exact fields_ok_of_checks eid c v dd (some kvs) h1 h2 h3

/-! ## Conversion-loop lemmas -/

/-- Registering an entry with a string constant and hashable value and
display succeeds and performs exactly the documented updates. -/
theorem addEntry_ok (d : ChoicesData) (ce : ChoiceEntry) (s : String)
    (hs : ce.constant = .str s) (hv : ce.value.hashable = true)
    (hd : ce.display.hashable = true) :
    d.addEntry ce =
      ({ d with
         pairs := d.pairs ++ [ce.choice],
         entries := d.entries ++ [ce],
         attrNames := if d.attrNames.contains s then d.attrNames
                      else d.attrNames ++ [s],
         constants := assocSet d.constants ce.constant ce,
         values := assocSet d.values ce.value ce,
         displays := assocSet d.displays ce.display ce }, none) := by
  unfold ChoicesData.addEntry
  rw [hs, hv, hd]
  simp [hs]

/-- Running the conversion loop over a list of already-built entries (the
subset-construction path) succeeds when each entry has a string constant
and hashable value and display, and appends them in order. -/
theorem convertLoop_entries_ok (es : List ChoiceEntry) :
    ∀ d : ChoicesData,
    (∀ e ∈ es, (∃ s, e.constant = PyVal.str s) ∧ e.value.hashable = true ∧
        e.display.hashable = true) →
    ∃ d', d.convertLoop (es.map BatchItem.entry) = (d', none) ∧
      d'.entries = d.entries ++ es ∧
      d'.pairs = d.pairs ++ es.map ChoiceEntry.choice ∧
      d'.constants = es.foldl (fun m e => assocSet m e.constant e) d.constants ∧
      d'.subsets = d.subsets ∧ d'.dictClass = d.dictClass ∧
      d'.mutable = d.mutable ∧ d'.nextId = d.nextId := by
  induction es with
  | nil =>
    intro d _
    exact ⟨d, rfl, by simp, by simp, rfl, rfl, rfl, rfl, rfl⟩
  | cons e rest ih =>
    intro d hcond
    obtain ⟨⟨s, hs⟩, hv, hd⟩ := hcond e (List.mem_cons_self _ _)
    have hstep := addEntry_ok d e s hs hv hd
    obtain ⟨d', hloop, hentries, hpairs, hconsts, hsub, hdc, hmut, hnid⟩ :=
      ih _ (fun e' he' => hcond e' (List.mem_cons_of_mem _ he'))
    refine ⟨d', ?_, ?_, ?_, ?_, ?_, ?_, ?_, ?_⟩
    · rw [List.map_cons, ChoicesData.convertLoop, hstep]
      exact hloop
    · rw [hentries]
      simp
    · rw [hpairs]
      simp
    · rw [hconsts]
      rfl
    · rw [hsub]
    · rw [hdc]
    · rw [hmut]
    · rw [hnid]

theorem assocGet_foldl_not_mem (es : List ChoiceEntry) :
    ∀ (m0 : List (PyVal × ChoiceEntry)) (k : PyVal),
    (∀ e ∈ es, e.constant ≠ k) →
    assocGet (es.foldl (fun m e => assocSet m e.constant e) m0) k = assocGet m0 k := by
  induction es with
  | nil => intro m0 k _; rfl
  | cons e rest ih =>
    intro m0 k hk
    rw [List.foldl_cons, ih _ k (fun e' he' => hk e' (List.mem_cons_of_mem _ he')),
      assocGet_set_ne _ _ _ _ (hk e (List.mem_cons_self _ _))]

theorem assocGet_foldl_mem (es : List ChoiceEntry) :
    ∀ (m0 : List (PyVal × ChoiceEntry)) (e : ChoiceEntry), e ∈ es →
    (es.map (fun e => e.constant)).Nodup →
    assocGet (es.foldl (fun m e => assocSet m e.constant e) m0) e.constant = some e := by
  induction es with
  | nil => intro m0 e he; cases he
  | cons e0 rest ih =>
    intro m0 e he hnodup
    rw [List.map_cons, List.nodup_cons] at hnodup
    rcases List.mem_cons.1 he with h | h
    · subst h
      rw [List.foldl_cons,
        assocGet_foldl_not_mem rest _ e.constant
          (fun e' he' hc => hnodup.1 (hc ▸ List.mem_map_of_mem _ he')),
        assocGet_set_self]
    · rw [List.foldl_cons]
      exact ih _ e h hnodup.2

/-- Looking every name up in a constant table whose bindings carry their
key reproduces the name list. -/
theorem filterMap_assoc_constants (names : List PyVal)
    (m : List (PyVal × ChoiceEntry))
    (hkey : ∀ p ∈ m, p.2.constant = p.1)
    (hmem : ∀ n ∈ names, (assocGet m n).isSome) :
    (names.filterMap (fun n => assocGet m n)).map (fun e => e.constant) = names := by
  induction names with
  | nil => rfl
  | cons n rest ih =>
    obtain ⟨e, he⟩ := Option.isSome_iff_exists.1 (hmem n (List.mem_cons_self _ _))
    rw [List.filterMap_cons, he, List.map_cons,
      ih (fun n' hn' => hmem n' (List.mem_cons_of_mem _ hn')),
      hkey (n, e) (assocGet_mem m n e he)]

theorem batchFirsts_entries (es : List ChoiceEntry) :
    batchFirsts (es.map BatchItem.entry) = .ok (es.map (fun e => e.constant)) := by
  induction es with
  | nil => rfl
  | cons e rest ih =>
    rw [List.map_cons, batchFirsts, batchProj, List.map_cons]
    rw [batchFirsts] at ih
    rw [ih]
    rfl

theorem batchSeconds_entries (es : List ChoiceEntry) :
    batchSeconds (es.map BatchItem.entry) = .ok (es.map (fun e => e.value)) := by
  induction es with
  | nil => rfl
  | cons e rest ih =>
    rw [List.map_cons, batchSeconds, batchProj, List.map_cons]
    rw [batchSeconds] at ih
    rw [ih]
    rfl

theorem contains_false_not_mem (l : List String) (s : String)
    (h : l.contains s = false) : s ∉ l := by
  intro hm
  have := List.elem_eq_true_of_mem hm
  rw [show l.contains s = l.elem s from rfl, this] at h
  cases h

/-- The constant-level checks pass on pairwise-distinct fresh string
constants. -/
theorem constantChecks_none (d0 : ChoicesData) (cs : List PyVal)
    (h1 : cs.Nodup)
    (h2 : ∀ c ∈ cs, ∃ s, c = PyVal.str s ∧ d0.attrNames.contains s = false)
    (h3 : ∀ c ∈ cs, assocGet d0.constants c = none) :
    d0.constantChecks cs = none := by
  unfold ChoicesData.constantChecks
  rw [if_neg (by
    rw [ne_eq, not_not]
    exact (filter_dup_eq_nil_iff_nodup cs).2 h1)]
  rw [if_neg (by
    simp only [List.any_eq_true, not_exists]
    intro c
    rw [not_and]
    intro hc
    obtain ⟨s, rfl, -⟩ := h2 c hc
    simp [PyVal.hashable])]
  rw [if_neg (by
    rw [ne_eq, not_not, List.filter_eq_nil_iff]
    intro c hc
    simp [h3 c hc])]
  rw [if_neg (by
    simp only [List.any_eq_true, not_exists]
    intro c
    rw [not_and]
    intro hc
    obtain ⟨s, rfl, -⟩ := h2 c hc
    simp)]
  rw [if_neg (by
    rw [ne_eq, not_not, List.filter_eq_nil_iff]
    intro c hc
    obtain ⟨s, rfl, hfresh⟩ := h2 c hc
    show ¬ (d0.attrNames.contains s = true)
    rw [hfresh]
    simp)]

/-- The value-level checks pass on pairwise-distinct hashable fresh
values. -/
theorem valueChecks_none (d0 : ChoicesData) (vs : List PyVal)
    (h1 : vs.Nodup)
    (h2 : ∀ v ∈ vs, v.hashable = true)
    (h3 : ∀ v ∈ vs, assocGet d0.values v = none) :
    d0.valueChecks vs = none := by
  unfold ChoicesData.valueChecks
  rw [if_neg (by
    rw [ne_eq, not_not]
    exact (filter_dup_eq_nil_iff_nodup vs).2 h1)]
  rw [if_neg (by
    simp only [List.any_eq_true, not_exists]
    intro v
    rw [not_and]
    intro hv
    simp [h2 v hv])]
  rw [if_neg (by
    rw [ne_eq, not_not, List.filter_eq_nil_iff]
    intro v hv
    simp [h3 v hv])]

/-- Assembling a successful `_convert_choices` run from its parts. -/
theorem convertChoices_eq_of_parts (d : ChoicesData) (batch : List BatchItem)
    (constants values : List PyVal) (d' : ChoicesData)
    (h1 : batchFirsts batch = .ok constants)
    (h2 : d.constantChecks constants = none)
    (h3 : batchSeconds batch = .ok values)
    (h4 : d.valueChecks values = none)
    (h5 : d.convertLoop batch = (d', none)) :
    d.convertChoices batch = (d', .ok constants) := by
  unfold ChoicesData.convertChoices
  split
  · next e heq => rw [h1] at heq; cases heq
  · next cs heq =>
    rw [h1] at heq
    injection heq with hcs
    subst hcs
    split
    · next e heq2 => rw [h2] at heq2; cases heq2
    · split
      · next e heq3 => rw [h3] at heq3; cases heq3
      · next vs heq3 =>
        rw [h3] at heq3
        injection heq3 with hvs
        subst hvs
        split
        · next e heq4 => rw [h4] at heq4; cases heq4
        · split
          · next d2 heq5 =>
            rw [h5] at heq5
            injection heq5 with hd2 hnone
            subst hd2
            rfl
          · next d2 e heq5 =>
            rw [h5] at heq5
            injection heq5 with hd2 hsome
            cases hsome

/-- Successful subset extraction: with pairwise-distinct names that all
exist as constants, `extract_subset` succeeds, the subset is immutable, its
entries are exactly the parent entries for the names in the given order,
and every per-name lookup returns the parent's entry itself. -/
theorem extractSubset_ok_spec (d : ChoicesData) (names : List PyVal)
    (hinv : d.Inv) (hnodup : names.Nodup)
    (hmem : ∀ n ∈ names, (assocGet d.constants n).isSome) :
    ∃ sub, d.extractSubset names = .ok sub ∧
      sub.mutable = false ∧
      sub.entries = names.filterMap (fun n => assocGet d.constants n) ∧
      (∀ n ∈ names, sub.for_constant n = d.for_constant n) := by
  obtain ⟨hconstInv, hvalInv⟩ := hinv
  have hkey : ∀ p ∈ d.constants, p.2.constant = p.1 := fun p hp => (hconstInv p hp).1
  set es := names.filterMap (fun n => assocGet d.constants n) with hes
  have hnames : es.map (fun e => e.constant) = names :=
    filterMap_assoc_constants names d.constants hkey hmem
  have hereg : ∀ e ∈ es, ∃ n ∈ names, assocGet d.constants n = some e ∧
      e.constant = n ∧ isFreshStrKey n = true ∧ e.value.hashable = true ∧
      assocGet d.values e.value = some e ∧ e.display.hashable = true := by
    intro e he
    rw [hes, List.mem_filterMap] at he
    obtain ⟨n, hn, hget⟩ := he
    have hbind := assocGet_mem _ _ _ hget
    obtain ⟨k1, k2, k3, k4, k5⟩ := hconstInv (n, e) hbind
    exact ⟨n, hn, hget, k1, k2, k3, k4, k5⟩
  have hstr : ∀ n ∈ names, ∃ s, n = PyVal.str s ∧ baseAttrs.contains s = false := by
    intro n hn
    obtain ⟨e, hget⟩ := Option.isSome_iff_exists.1 (hmem n hn)
    have := (hconstInv (n, e) (assocGet_mem _ _ _ hget)).2.1
    cases n with
    | str s =>
      refine ⟨s, rfl, ?_⟩
      simpa [isFreshStrKey] using this
    | int m => simp [isFreshStrKey] at this
    | pynone => simp [isFreshStrKey] at this
    | pylist xs => simp [isFreshStrKey] at this
    | pymap kvs => simp [isFreshStrKey] at this
  have hhash : ¬ (names.any (fun c => ¬ c.hashable) = true) := by
    rw [List.any_eq_true]
    rintro ⟨n, hn, hbad⟩
    obtain ⟨s, rfl, -⟩ := hstr n hn
    simp [PyVal.hashable] at hbad
  have hesnodup : es.Nodup := by
    have : (es.map (fun e => e.constant)).Nodup := hnames ▸ hnodup
    exact List.Nodup.of_map _ this
  have hvalsnodup : (es.map (fun e => e.value)).Nodup := by
    refine List.Nodup.map_on ?_ hesnodup
    intro e1 he1 e2 he2 hv
    obtain ⟨-, -, -, -, -, -, r1, -⟩ := hereg e1 he1
    obtain ⟨-, -, -, -, -, -, r2, -⟩ := hereg e2 he2
    have : some e1 = some e2 := by rw [← r1, hv, r2]
    exact Option.some.injEq _ _ ▸ this
  have hcheck1 : (ChoicesData.empty d.dictClass 0).constantChecks
      (es.map (fun e => e.constant)) = none := by
    rw [hnames]
    refine constantChecks_none _ names hnodup ?_ ?_
    · intro n hn
      obtain ⟨s, rfl, hfresh⟩ := hstr n hn
      exact ⟨s, rfl, hfresh⟩
    · intro n hn
      rfl
  have hcheck2 : (ChoicesData.empty d.dictClass 0).valueChecks
      (es.map (fun e => e.value)) = none := by
    refine valueChecks_none _ _ hvalsnodup ?_ ?_
    · intro v hv
      rw [List.mem_map] at hv
      obtain ⟨e, he, rfl⟩ := hv
      obtain ⟨-, -, -, -, -, hhash, -, -⟩ := hereg e he
      exact hhash
    · intro v hv
      rfl
  obtain ⟨d', hloop, hentries, hpairs, hconsts, hsubs, hdc, hmut, hnid⟩ :=
    convertLoop_entries_ok es (ChoicesData.empty d.dictClass 0)
      (by
        intro e he
        obtain ⟨n, -, -, hc, hfresh, hv, -, hd⟩ := hereg e he
        refine ⟨?_, hv, hd⟩
        cases n with
        | str s => exact ⟨s, hc⟩
        | int m => simp [isFreshStrKey] at hfresh
        | pynone => simp [isFreshStrKey] at hfresh
        | pylist xs => simp [isFreshStrKey] at hfresh
        | pymap kvs => simp [isFreshStrKey] at hfresh)
  have hconv : (ChoicesData.empty d.dictClass 0).convertChoices
      (es.map BatchItem.entry) = (d', .ok (es.map (fun e => e.constant))) :=
    convertChoices_eq_of_parts _ _ _ _ _ (batchFirsts_entries es) hcheck1
      (batchSeconds_entries es) hcheck2 hloop
  have hguard : (names.filter (fun c => (assocGet d.constants c).isNone)) = [] := by
    rw [List.filter_eq_nil_iff]
    intro n hn
    have := hmem n hn
    simp only [Option.isNone_iff_eq_none]
    intro hcontra
    rw [hcontra] at this
    simp at this
  refine ⟨{ d' with mutable := false }, ?_, rfl, ?_, ?_⟩
  · unfold ChoicesData.extractSubset
    rw [if_neg hhash, if_neg (by simp [hguard]), ← hes]
    simp only []
    rw [hconv]
  · show d'.entries = es
    rw [hentries]
    rfl
  · intro n hn
    obtain ⟨e, hget⟩ := Option.isSome_iff_exists.1 (hmem n hn)
    have hein : e ∈ es := by
      rw [hes, List.mem_filterMap]
      exact ⟨n, hn, hget⟩
    have hcn : e.constant = n := hkey (n, e) (assocGet_mem _ _ _ hget)
    have hsubget : assocGet d'.constants n = some e := by
      rw [hconsts, ← hcn]
      exact assocGet_foldl_mem es _ e hein (by rw [hnames]; exact hnodup)
    obtain ⟨s, rfl, -⟩ := hstr n hn
    show ChoicesData.for_constant _ _ = _
    unfold ChoicesData.for_constant
    simp only [PyVal.hashable, if_pos]
    rw [show ({ d' with mutable := false } : ChoicesData).constants = d'.constants
      from rfl, hsubget, hget]

/-! ## Tuple-batch loop lemmas -/

/-- A successfully created entry's `(value, display)` pair is the
`(t[1], t[2])` projection of its input tuple. -/
theorem make_ok_rawPair (eid : Nat) (t : List PyVal) (e : ChoiceEntry)
    (h : ChoiceEntry.make eid t = .ok e) :
    rawPair t = (e.value, e.display) := by
  unfold ChoiceEntry.make at h
  rcases t with _ | ⟨c, _ | ⟨v, _ | ⟨dd, _ | ⟨a, _ | ⟨x, rest⟩⟩⟩⟩⟩
  · cases h
  · cases h
  · cases h
  · obtain ⟨he, -, -, -⟩ := fields_ok _ _ _ _ _ _ h
    subst he
    rfl
  · cases a with
    | pynone =>
      obtain ⟨he, -, -, -⟩ := fields_ok _ _ _ _ _ _ h
      subst he
      rfl
    | pymap kvs =>
      have h' : (if ¬ kvs.isEmpty ∧ kvs.any
              (fun kv => kv.1 = "constant" ∨ kv.1 = "value" ∨ kv.1 = "display") then
            (.error (PyErr.assertionError
              "Additional attributes cannot contain a reserved name") :
              Except PyErr ChoiceEntry)
          else ChoiceEntry.fields eid c v dd (some kvs)) = .ok e := h
      split_ifs at h' with hres
      obtain ⟨he, -, -, -⟩ := fields_ok _ _ _ _ _ _ h'
      subst he
      rfl
    | str s => cases h
    | int n => cases h
    | pylist xs => cases h
  · cases h

/-- A successful `addEntry` run implies the entry was well-formed for
registration, and performs exactly the documented updates. -/
theorem addEntry_none (d : ChoicesData) (ce : ChoiceEntry) (d1 : ChoicesData)
    (h : d.addEntry ce = (d1, none)) :
    ∃ s, ce.constant = PyVal.str s ∧ ce.value.hashable = true ∧
      ce.display.hashable = true ∧
      d1 = { d with
             pairs := d.pairs ++ [ce.choice],
             entries := d.entries ++ [ce],
             attrNames := if d.attrNames.contains s then d.attrNames
                          else d.attrNames ++ [s],
             constants := assocSet d.constants ce.constant ce,
             values := assocSet d.values ce.value ce,
             displays := assocSet d.displays ce.display ce } := by
  unfold ChoicesData.addEntry at h
  cases hc : ce.constant with
  | str s =>
    rw [hc] at h
    simp only [] at h
    by_cases hv : ce.value.hashable = true
    · rw [if_pos hv] at h
      by_cases hd : ce.display.hashable = true
      · rw [if_pos hd] at h
        injection h with h1 h2
        exact ⟨s, rfl, hv, hd, h1.symm⟩
      · rw [if_neg hd] at h
        injection h with h1 h2
        cases h2
    · rw [if_neg hv] at h
      injection h with h1 h2
      cases h2
  | int n => rw [hc] at h; injection h with h1 h2; cases h2
  | pynone => rw [hc] at h; injection h with h1 h2; cases h2
  | pylist xs => rw [hc] at h; injection h with h1 h2; cases h2
  | pymap kvs => rw [hc] at h; injection h with h1 h2; cases h2

/-- A successful conversion loop over raw tuples creates one entry per
tuple (ids running along the loop), appends them in order, projects the
batch onto the created constants and values, and — centrally for the
snapshot/restore contract — replaying the loop on the recorded snapshot
tuples of the created entries reaches exactly the same state. -/
theorem convertLoop_tups_spec (ts : List (List PyVal)) :
    ∀ d d' : ChoicesData, d.convertLoop (ts.map BatchItem.tup) = (d', none) →
    ∃ es : List ChoiceEntry,
      d'.entries = d.entries ++ es ∧
      d'.pairs = d.pairs ++ es.map ChoiceEntry.choice ∧
      es.map ChoiceEntry.choice = ts.map rawPair ∧
      batchFirsts (ts.map BatchItem.tup) = .ok (es.map (fun e => e.constant)) ∧
      batchSeconds (ts.map BatchItem.tup) = .ok (es.map (fun e => e.value)) ∧
      d.convertLoop (es.map (fun e => BatchItem.tup (snapTup e.snap))) = (d', none) ∧
      d'.subsets = d.subsets ∧ d'.dictClass = d.dictClass ∧ d'.mutable = d.mutable ∧
      ((∀ p ∈ d.constants, p.2.constant = p.1) →
        ∀ p ∈ d'.constants, p.2.constant = p.1) := by
  induction ts with
  | nil =>
    intro d d' h
    have h' : ((d, none) : ChoicesData × Option PyErr) = (d', none) := h
    injection h' with h1 h2
    subst h1
    exact ⟨[], by simp, by simp, rfl, rfl, rfl, rfl, rfl, rfl, rfl, fun hk => hk⟩
  | cons t ts ih =>
    intro d d' h
    have h' : (match ChoiceEntry.make d.nextId t with
               | .error e => (d, some e)
               | .ok ce =>
                 match ChoicesData.addEntry { d with nextId := d.nextId + 1 } ce with
                 | (d1, none) => d1.convertLoop (ts.map BatchItem.tup)
                 | (d1, some e) => (d1, some e)) = (d', none) := h
    cases hmake : ChoiceEntry.make d.nextId t with
    | error e =>
      rw [hmake] at h'
      have h'' : ((d, some e) : ChoicesData × Option PyErr) = (d', none) := h'
      injection h'' with h1 h2
      cases h2
    | ok ce =>
      rw [hmake] at h'
      have h'' : (match ChoicesData.addEntry { d with nextId := d.nextId + 1 } ce with
                  | (d1, none) => d1.convertLoop (ts.map BatchItem.tup)
                  | (d1, some e) => (d1, some e)) = (d', none) := h'
      cases haddE : ChoicesData.addEntry { d with nextId := d.nextId + 1 } ce with
      | mk d1 r =>
        rw [haddE] at h''
        cases r with
        | some e =>
          have h3 : ((d1, some e) : ChoicesData × Option PyErr) = (d', none) := h''
          injection h3 with h1 h2
          cases h2
        | none =>
          have h3 : d1.convertLoop (ts.map BatchItem.tup) = (d', none) := h''
          obtain ⟨es, ihent, ihpairs, ihchoice, ihfirsts, ihseconds, ihreplay,
            ihsubs, ihdc, ihmut, ihkey⟩ := ih d1 d' h3
          obtain ⟨s, hcs, hv, hd, hd1⟩ := addEntry_none _ _ _ haddE
          obtain ⟨heid, -, -, -, -, hfirst, hsecond⟩ := make_ok_facts _ _ _ hmake
          have hrawp := make_ok_rawPair _ _ _ hmake
          refine ⟨ce :: es, ?_, ?_, ?_, ?_, ?_, ?_, ?_, ?_, ?_, ?_⟩
          · rw [ihent, hd1]
            simp
          · rw [ihpairs, hd1]
            simp
          · rw [List.map_cons, List.map_cons, ihchoice, hrawp]
            rfl
          · rw [List.map_cons, batchFirsts, batchProj, hfirst,
              show batchProj BatchItem.first (List.map BatchItem.tup ts) =
                Except.ok (es.map (fun e => e.constant)) from ihfirsts]
            rfl
          · rw [List.map_cons, batchSeconds, batchProj, hsecond,
              show batchProj BatchItem.second (List.map BatchItem.tup ts) =
                Except.ok (es.map (fun e => e.value)) from ihseconds]
            rfl
          · have hmake2 : ChoiceEntry.make d.nextId (snapTup ce.snap) = .ok ce :=
              heid ▸ make_snap_roundtrip _ _ _ hmake
            rw [List.map_cons, ChoicesData.convertLoop, hmake2]
            show (match ChoicesData.addEntry { d with nextId := d.nextId + 1 } ce with
                  | (d1, none) =>
                    d1.convertLoop (es.map (fun e => BatchItem.tup (snapTup e.snap)))
                  | (d1, some e) => (d1, some e)) = (d', none)
            rw [haddE]
            exact ihreplay
          · rw [ihsubs, hd1]
          · rw [ihdc, hd1]
          · rw [ihmut, hd1]
          · intro hkey0
            refine ihkey ?_
            rw [hd1]
            exact assocSet_forall _ _ _ _ hkey0 rfl

theorem assocGet_eq_none {α β : Type} [DecidableEq α] (m : List (α × β)) (k : α)
    (h : ∀ q ∈ m, q.1 ≠ k) : assocGet m k = none := by
  induction m with
  | nil => rfl
  | cons q rest ih =>
    rw [assocGet, if_neg (h q (List.mem_cons_self _ _))]
    exact ih (fun q' hq' => h q' (List.mem_cons_of_mem _ hq'))

theorem assocGet_append_skip {α β : Type} [DecidableEq α]
    (m1 m2 : List (α × β)) (k : α) (h : assocGet m1 k = none) :
    assocGet (m1 ++ m2) k = assocGet m2 k := by
  rw [assocGet_append, h]

theorem assocSet_fresh {α β : Type} [DecidableEq α] (m : List (α × β)) (k : α)
    (v : β) (h : assocGet m k = none) : assocSet m k v = m ++ [(k, v)] := by
  induction m with
  | nil => rfl
  | cons q rest ih =>
    rw [assocGet] at h
    rw [assocSet]
    by_cases hk : q.1 = k
    · rw [if_pos hk] at h
      cases h
    · rw [if_neg hk] at h
      rw [if_neg hk, List.cons_append, ih h]

theorem foldl_assocSet_fresh (es : List ChoiceEntry) :
    ∀ m0 : List (PyVal × ChoiceEntry),
    (es.map (fun e => e.constant)).Nodup →
    (∀ e ∈ es, assocGet m0 e.constant = none) →
    es.foldl (fun m e => assocSet m e.constant e) m0 =
      m0 ++ es.map (fun e => (e.constant, e)) := by
  induction es with
  | nil => intro m0 _ _; simp
  | cons e rest ih =>
    intro m0 hnodup hfresh
    rw [List.map_cons, List.nodup_cons] at hnodup
    have hstep : ∀ e' ∈ rest, assocGet (m0 ++ [(e.constant, e)]) e'.constant = none := by
      intro e' he'
      rw [assocGet_append_skip _ _ _ (hfresh e' (List.mem_cons_of_mem _ he'))]
      show (if e.constant = e'.constant then some e else none) = none
      rw [if_neg (fun hc => hnodup.1 (by rw [hc]; exact List.mem_map_of_mem _ he'))]
    rw [List.foldl_cons, assocSet_fresh m0 _ _ (hfresh e (List.mem_cons_self _ _)),
      ih _ hnodup.2 hstep]
    simp

theorem batchFirsts_snaps (es : List ChoiceEntry) :
    batchFirsts (es.map (fun e => BatchItem.tup (snapTup e.snap))) =
      .ok (es.map (fun e => e.constant)) := by
  induction es with
  | nil => rfl
  | cons e rest ih =>
    rw [List.map_cons, batchFirsts, batchProj, List.map_cons]
    rw [batchFirsts] at ih
    rw [show (BatchItem.tup (snapTup e.snap)).first = .ok e.constant from rfl, ih]

theorem batchSeconds_snaps (es : List ChoiceEntry) :
    batchSeconds (es.map (fun e => BatchItem.tup (snapTup e.snap))) =
      .ok (es.map (fun e => e.value)) := by
  induction es with
  | nil => rfl
  | cons e rest ih =>
    rw [List.map_cons, batchSeconds, batchProj, List.map_cons]
    rw [batchSeconds] at ih
    rw [show (BatchItem.tup (snapTup e.snap)).second = .ok e.value from rfl, ih]

/-- Decomposition of a successful `_convert_choices` run into its
stages. -/
theorem convertChoices_ok_parts (d : ChoicesData) (batch : List BatchItem)
    (d' : ChoicesData) (ks : List PyVal)
    (h : d.convertChoices batch = (d', .ok ks)) :
    batchFirsts batch = .ok ks ∧ d.constantChecks ks = none ∧
    ∃ vs, batchSeconds batch = .ok vs ∧ d.valueChecks vs = none ∧
      d.convertLoop batch = (d', none) := by
  unfold ChoicesData.convertChoices at h
  split at h
  · next e heq =>
    injection h with h1 h2
    cases h2
  · next cs heq =>
    split at h
    · next e heq2 =>
      injection h with h1 h2
      cases h2
    · next heq2 =>
      split at h
      · next e heq3 =>
        injection h with h1 h2
        cases h2
      · next vs heq3 =>
        split at h
        · next e heq4 =>
          injection h with h1 h2
          cases h2
        · next heq4 =>
          split at h
          · next d2 heq5 =>
            injection h with h1 h2
            injection h2 with h3
            subst h3
            subst h1
            exact ⟨heq, heq2, vs, heq3, heq4, heq5⟩
          · next d2 e heq5 =>
            injection h with h1 h2
            cases h2

/-- Replay of a successful `_convert_choices` run over raw tuples on the
recorded snapshot tuples of the created entries: same final state, same
returned constants; plus the bookkeeping facts needed downstream. -/
theorem convertChoices_tups_replay (d : ChoicesData) (ts : List (List PyVal))
    (d' : ChoicesData) (ks : List PyVal)
    (h : d.convertChoices (ts.map BatchItem.tup) = (d', .ok ks)) :
    ∃ es : List ChoiceEntry,
      d'.entries = d.entries ++ es ∧ ks = es.map (fun e => e.constant) ∧
      d.convertChoices (es.map (fun e => BatchItem.tup (snapTup e.snap))) =
        (d', .ok ks) ∧
      d'.pairs = d.pairs ++ ts.map rawPair ∧
      d'.subsets = d.subsets ∧ d'.dictClass = d.dictClass ∧
      d'.mutable = d.mutable ∧
      ((∀ p ∈ d.constants, p.2.constant = p.1) →
        ∀ p ∈ d'.constants, p.2.constant = p.1) := by
  obtain ⟨hf, hck, vs, hs, hvk, hloop⟩ := convertChoices_ok_parts _ _ _ _ h
  obtain ⟨es, hent, hpairs, hchoice, hfirsts, hseconds, hreplay, hsubs, hdc,
    hmut, hkey⟩ := convertLoop_tups_spec ts d d' hloop
  have hks : ks = es.map (fun e => e.constant) := by
    rw [hf] at hfirsts
    injection hfirsts
  have hvs : vs = es.map (fun e => e.value) := by
    rw [hs] at hseconds
    injection hseconds
  refine ⟨es, hent, hks, ?_, ?_, hsubs, hdc, hmut, hkey⟩
  · refine convertChoices_eq_of_parts _ _ _ (es.map (fun e => e.value)) _ ?_ ?_ ?_ ?_ hreplay
    · rw [batchFirsts_snaps, hks]
    · exact hck
    · exact batchSeconds_snaps es
    · rw [hvs] at hvk
      exact hvk
  · rw [hpairs, hchoice]

/-- `add_choices` with no subset name, on a mutable collection, on a
failing `_convert_choices` call: the exception propagates with the state
at the raise point kept. -/
theorem addChoices_none_name_err (c0 : Choices) (batch : List BatchItem)
    (hmut : c0.d.mutable = true) (d2 : ChoicesData) (e : PyErr)
    (hconv : c0.d.convertChoices batch = (d2, .error e)) :
    c0.addChoices none batch none = ({ c0 with d := d2 }, some e) := by
  unfold Choices.addChoices
  rw [if_neg (by simp [hmut]), hconv]

/-- `add_choices` with no subset name, on a mutable collection, on a
successful `_convert_choices` call. -/
theorem addChoices_none_name_ok (c0 : Choices) (batch : List BatchItem)
    (hmut : c0.d.mutable = true) (d2 : ChoicesData) (ks : List PyVal)
    (hconv : c0.d.convertChoices batch = (d2, .ok ks)) :
    c0.addChoices none batch none = ({ c0 with d := d2 }, none) := by
  unfold Choices.addChoices
  rw [if_neg (by simp [hmut]), hconv]
  rfl

/-- `Choices.__init__` with no subset name, when `_convert_choices`
succeeds from the empty state: the final state with the requested
`_mutable` flag. -/
theorem init_eq_ok (startId : Nat) (batch : List BatchItem) (dc : DictClass)
    (m : Bool) (d2 : ChoicesData) (ks : List PyVal)
    (hconv : (ChoicesData.empty dc startId).convertChoices batch = (d2, .ok ks)) :
    Choices.init startId batch none dc m =
      ((⟨{ d2 with mutable := m }, []⟩ : Choices), none) := by
  have haddc := addChoices_none_name_ok (Choices.ofData (ChoicesData.empty dc startId))
    batch rfl d2 ks hconv
  unfold Choices.init
  simp only []
  rw [haddc]
  rfl

/-- `Choices.__init__` with no subset name, when `_convert_choices`
raises: the exception propagates out of the constructor. -/
theorem init_eq_err (startId : Nat) (batch : List BatchItem) (dc : DictClass)
    (m : Bool) (d2 : ChoicesData) (e : PyErr)
    (hconv : (ChoicesData.empty dc startId).convertChoices batch = (d2, .error e)) :
    Choices.init startId batch none dc m = ((⟨d2, []⟩ : Choices), some e) := by
  have haddc := addChoices_none_name_err (Choices.ofData (ChoicesData.empty dc startId))
    batch rfl d2 e hconv
  unfold Choices.init
  simp only []
  rw [haddc]
  rfl

/-- Decomposition of a successful construction with no subset name. -/
theorem init_ok_parts (startId : Nat) (batch : List BatchItem) (dc : DictClass)
    (m : Bool) (c : Choices)
    (h : Choices.init startId batch none dc m = (c, none)) :
    ∃ d' ks, (ChoicesData.empty dc startId).convertChoices batch = (d', .ok ks) ∧
      c = ⟨{ d' with mutable := m }, []⟩ := by
  cases hconv : (ChoicesData.empty dc startId).convertChoices batch with
  | mk d2 res =>
    cases res with
    | error e =>
      rw [init_eq_err startId batch dc m d2 e hconv] at h
      injection h with h1 h2
      cases h2
    | ok ks =>
      rw [init_eq_ok startId batch dc m d2 ks hconv] at h
      injection h with h1 h2
      exact ⟨d2, ks, rfl, h1.symm⟩

theorem constantChecks_none_nodup (d0 : ChoicesData) (cs : List PyVal)
    (h : d0.constantChecks cs = none) : cs.Nodup := by
  by_cases h1 : (cs.filter (fun c => pyCount cs c > 1)) ≠ []
  · rw [ChoicesData.constantChecks, if_pos h1] at h
    cases h
  · rw [ne_eq, not_not, filter_dup_eq_nil_iff_nodup] at h1
    exact h1

/-- Structure of a successful entry-sharing conversion loop: entries
appended, constant table extended by folding the entries in. -/
theorem convertLoop_entries_of_ok (es : List ChoiceEntry) :
    ∀ d d' : ChoicesData, d.convertLoop (es.map BatchItem.entry) = (d', none) →
    d'.entries = d.entries ++ es ∧
    d'.constants = es.foldl (fun m e => assocSet m e.constant e) d.constants := by
  induction es with
  | nil =>
    intro d d' h
    have h' : ((d, none) : ChoicesData × Option PyErr) = (d', none) := h
    injection h' with h1 h2
    subst h1
    exact ⟨by simp, rfl⟩
  | cons e rest ih =>
    intro d d' h
    have h' : (match ChoicesData.addEntry d e with
               | (d1, none) => d1.convertLoop (rest.map BatchItem.entry)
               | (d1, some er) => (d1, some er)) = (d', none) := h
    cases haddE : ChoicesData.addEntry d e with
    | mk d1 r =>
      rw [haddE] at h'
      cases r with
      | some er =>
        have h3 : ((d1, some er) : ChoicesData × Option PyErr) = (d', none) := h'
        injection h3 with h1 h2
        cases h2
      | none =>
        have h3 : d1.convertLoop (rest.map BatchItem.entry) = (d', none) := h'
        obtain ⟨ihent, ihconst⟩ := ih d1 d' h3
        obtain ⟨s, hcs, hv, hd, hd1⟩ := addEntry_none _ _ _ haddE
        constructor
        · rw [ihent, hd1]
          simp
        · rw [List.foldl_cons, ihconst, hd1]

/-- The recorded constant keys of a successfully extracted subset are
exactly the requested constants, in order. -/
theorem extractSubset_keys (d : ChoicesData) (cs : List PyVal)
    (sub : ChoicesData)
    (hkey : ∀ p ∈ d.constants, p.2.constant = p.1)
    (h : d.extractSubset cs = .ok sub) :
    sub.constants.map Prod.fst = cs := by
  unfold ChoicesData.extractSubset at h
  split at h
  · cases h
  split at h
  · cases h
  next hguard =>
    simp only [] at h
    split at h
    · next sub0 ks heq =>
      injection h with hsub
      have hmem : ∀ c ∈ cs, (assocGet d.constants c).isSome := by
        rw [ne_eq, not_not, List.filter_eq_nil_iff] at hguard
        intro c hc
        have := hguard c hc
        simp only [Bool.not_eq_true, Option.isNone_eq_false_iff] at this
        exact this
      set es := cs.filterMap (fun c => assocGet d.constants c) with hes
      have hnames : es.map (fun e => e.constant) = cs :=
        filterMap_assoc_constants cs d.constants hkey hmem
      obtain ⟨hf, hck, vs, hs2, hvk, hloop⟩ := convertChoices_ok_parts _ _ _ _ heq
      obtain ⟨hent, hconst⟩ := convertLoop_entries_of_ok _ _ _ hloop
      have hks : ks = es.map (fun e => e.constant) := by
        rw [batchFirsts_entries] at hf
        injection hf with hf'
        exact hf'.symm
      have hnodup : (es.map (fun e => e.constant)).Nodup := by
        rw [hnames]
        rw [hks, hnames] at hck
        exact constantChecks_none_nodup _ _ hck
      have hconst0 : sub0.constants = es.map (fun e => (e.constant, e)) := by
        rw [hconst,
          foldl_assocSet_fresh es (ChoicesData.empty d.dictClass 0).constants
            hnodup (fun e' _ => rfl)]
        rfl
      rw [← hsub]
      show sub0.constants.map Prod.fst = cs
      rw [hconst0, List.map_map]
      exact hnames
    · cases h

/-- Structure of a successful `add_subset` call. -/
theorem addSubset_ok_parts (c : Choices) (nm : String) (cs : List PyVal)
    (c' : Choices) (h : c.addSubset nm cs = .ok c') :
    c.d.attrNames.contains nm = false ∧
    ∃ sub, c.d.extractSubset cs = .ok sub ∧
      c' = ⟨{ c.d with
              attrNames := c.d.attrNames ++ [nm]
              subsets := c.d.subsets ++ [nm] },
            c.subsetMap ++ [(nm, sub)]⟩ := by
  unfold Choices.addSubset at h
  split at h
  · cases h
  · next hattr =>
    split at h
    · cases h
    · next sub heq =>
      injection h with h1
      refine ⟨?_, sub, heq, h1.symm⟩
      rw [Bool.eq_false_iff, ne_eq]
      exact fun hc => hattr hc

/-- Replaying a sequence of successful `add_subset` calls: the collection
state is preserved except for the subset bookkeeping, the subset names
accumulate in order, and each recorded subset can be looked up by name and
carries exactly the requested constants as keys. -/
theorem addSubsetsSeq_spec (subs : List (String × List PyVal)) :
    ∀ c0 c : Choices,
    (∀ p ∈ c0.d.constants, p.2.constant = p.1) →
    (∀ q ∈ c0.subsetMap, q.1 ∈ c0.d.attrNames) →
    c0.addSubsetsSeq subs = (c, none) →
    c.d.entries = c0.d.entries ∧ c.d.pairs = c0.d.pairs ∧
    c.d.mutable = c0.d.mutable ∧ c.d.dictClass = c0.d.dictClass ∧
    c.d.constants = c0.d.constants ∧
    c.d.subsets = c0.d.subsets ++ subs.map Prod.fst ∧
    (∃ tail, c.subsetMap = c0.subsetMap ++ tail ∧
      ∀ q ∈ tail, q.1 ∉ c0.d.attrNames) ∧
    (∀ p ∈ subs, ∃ sub, assocGet c.subsetMap p.1 = some sub ∧
      sub.constants.map Prod.fst = p.2) := by
  induction subs with
  | nil =>
    intro c0 c _ _ h
    have h' : ((c0, none) : Choices × Option PyErr) = (c, none) := h
    injection h' with h1 h2
    subst h1
    refine ⟨rfl, rfl, rfl, rfl, rfl, by simp, ⟨[], by simp, by simp⟩, ?_⟩
    intro p hp
    cases hp
  | cons p rest ih =>
    intro c0 c hkey hattrinv h
    obtain ⟨nm, cs⟩ := p
    have h' : (match c0.addSubset nm cs with
               | .ok c1 => c1.addSubsetsSeq rest
               | .error e => (c0, some e)) = (c, none) := h
    cases haddsub : c0.addSubset nm cs with
    | error e =>
      rw [haddsub] at h'
      have h3 : ((c0, some e) : Choices × Option PyErr) = (c, none) := h'
      injection h3 with h1 h2
      cases h2
    | ok c1 =>
      rw [haddsub] at h'
      have h3 : c1.addSubsetsSeq rest = (c, none) := h'
      obtain ⟨hattrF, sub, hext, hc1⟩ := addSubset_ok_parts _ _ _ _ haddsub
      have hnmnot : nm ∉ c0.d.attrNames := contains_false_not_mem _ _ hattrF
      have hkey1 : ∀ q ∈ c1.d.constants, q.2.constant = q.1 := by
        rw [hc1]
        exact hkey
      have hattrinv1 : ∀ q ∈ c1.subsetMap, q.1 ∈ c1.d.attrNames := by
        rw [hc1]
        intro q hq
        rcases List.mem_append.1 hq with hq | hq
        · exact List.mem_append_left _ (hattrinv q hq)
        · rw [List.mem_singleton] at hq
          subst hq
          exact List.mem_append_right _ (List.mem_singleton.2 rfl)
      obtain ⟨ihent, ihpairs, ihmut, ihdc, ihconst, ihsubsets, ⟨tail1, ihtail, ihtailfresh⟩,
        ihlookup⟩ := ih c1 c hkey1 hattrinv1 h3
      refine ⟨?_, ?_, ?_, ?_, ?_, ?_, ?_, ?_⟩
      · rw [ihent, hc1]
      · rw [ihpairs, hc1]
      · rw [ihmut, hc1]
      · rw [ihdc, hc1]
      · rw [ihconst, hc1]
      · rw [ihsubsets, hc1]
        simp
      · refine ⟨(nm, sub) :: tail1, ?_, ?_⟩
        · rw [ihtail, hc1]
          simp
        · intro q hq
          rcases List.mem_cons.1 hq with hq | hq
          · subst hq
            exact hnmnot
          · have := ihtailfresh q hq
            rw [hc1] at this
            intro hcontra
            exact this (List.mem_append_left _ hcontra)
      · intro p hp
        rcases List.mem_cons.1 hp with hp | hp
        · subst hp
          refine ⟨sub, ?_, extractSubset_keys _ _ _ hkey hext⟩
          rw [ihtail, hc1]
          show assocGet ((c0.subsetMap ++ [(nm, sub)]) ++ tail1) nm = some sub
          rw [List.append_assoc,
            assocGet_append_skip c0.subsetMap _ nm
              (assocGet_eq_none _ _ (fun q hq hq1 =>
                hnmnot (hq1 ▸ hattrinv q hq))),
            List.singleton_append, assocGet, if_pos rfl]
        · exact ihlookup p hp

theorem map_eq_self_of_forall {α : Type} (l : List α) (f : α → α)
    (h : ∀ a ∈ l, f a = a) : l.map f = l := by
  induction l with
  | nil => rfl
  | cons a rest ih =>
    rw [List.map_cons, h a (List.mem_cons_self _ _),
      ih (fun a' ha' => h a' (List.mem_cons_of_mem _ ha'))]

/-! ## C2: snapshot/restore round-trip -/

/-- C2: for every collection built (with any `dict_class` and `mutable`
options) from a batch of raw tuples whose construction succeeds — which
enforces unique constants and unique, non-null, hashable values — followed
by any sequence of successful `add_subset` calls, restoring from its
snapshot (the recorded raw entry tuples, the recorded
`(subset_name, constants)` pairs, and the recorded options) reproduces the
collection exactly: the same entries (including the ids modelling object
identity), the same lookup tables and attributes, and the same subsets. -/
theorem snapshot_restore_roundtrip (ts : List (List PyVal)) (dc : DictClass)
    (m : Bool) (subs : List (String × List PyVal)) (c0 c : Choices)
    (hinit : Choices.init 0 (ts.map BatchItem.tup) none dc m = (c0, none))
    (hsubs : c0.addSubsetsSeq subs = (c, none)) :
    restore (Choices.snapshot c) = (c, none) := by
  obtain ⟨d0, ks, hconv, hc0⟩ := init_ok_parts _ _ _ _ _ hinit
  obtain ⟨es, hent, hks, hreplay, hpairs0, hsubs0, hdc0, hmut0, hkey0⟩ :=
    convertChoices_tups_replay _ _ _ _ hconv
  have hentes : d0.entries = es := by
    rw [hent]
    rfl
  have hkeyd0 : ∀ p ∈ d0.constants, p.2.constant = p.1 :=
    hkey0 (fun p hp => absurd hp (List.not_mem_nil p))
  subst hc0
  obtain ⟨ihent, ihpairs, ihmut, ihdc, ihconst, ihsubsets, ⟨tail, ihtail, -⟩,
    ihlookup⟩ :=
    addSubsetsSeq_spec subs (⟨{ d0 with mutable := m }, []⟩ : Choices) c
      hkeyd0 (fun q hq => absurd hq (List.not_mem_nil q)) hsubs
  have hsnap : Choices.snapshot c =
      { choices := es.map ChoiceEntry.snap, subsets := subs, dictClass := dc,
        mutable := m } := by
    unfold Choices.snapshot
    have f1 : c.d.entries.map ChoiceEntry.snap = es.map ChoiceEntry.snap := by
      rw [ihent,
        show (⟨{ d0 with mutable := m }, []⟩ : Choices).d.entries = d0.entries
          from rfl,
        hentes]
    have f2 : c.d.subsets.map (fun name =>
        (name, match assocGet c.subsetMap name with
               | some s => s.constants.map Prod.fst
               | none => [])) = subs := by
      have hcsubs : c.d.subsets = subs.map Prod.fst := by
        rw [ihsubsets,
          show (⟨{ d0 with mutable := m }, []⟩ : Choices).d.subsets = d0.subsets
            from rfl,
          hsubs0]
        rfl
      rw [hcsubs, List.map_map]
      refine map_eq_self_of_forall subs _ ?_
      intro p hp
      obtain ⟨sub, hget, hkeys⟩ := ihlookup p hp
      show (p.1, match assocGet c.subsetMap p.1 with
                 | some s => s.constants.map Prod.fst
                 | none => []) = p
      rw [hget]
      show (p.1, sub.constants.map Prod.fst) = p
      rw [hkeys]
    have f3 : c.d.dictClass = dc := by
      rw [ihdc,
        show (⟨{ d0 with mutable := m }, []⟩ : Choices).d.dictClass = d0.dictClass
          from rfl,
        hdc0]
      rfl
    have f4 : c.d.mutable = m := by
      rw [ihmut]
    rw [f1, f2, f3, f4]
  rw [hsnap]
  have hinit2 : Choices.init 0
      ((es.map ChoiceEntry.snap).map (fun t => BatchItem.tup (snapTup t))) none
      dc m = ((⟨{ d0 with mutable := m }, []⟩ : Choices), none) := by
    rw [List.map_map]
    exact init_eq_ok 0 _ dc m d0 ks hreplay
  show (match Choices.init 0
        ((es.map ChoiceEntry.snap).map (fun t => BatchItem.tup (snapTup t))) none
        dc m with
      | (c', some e) => (c', some e)
      | (c', none) => c'.addSubsetsSeq subs) = (c, none)
  rw [hinit2]
  exact hsubs

/-- Witness for `snapshot_restore_roundtrip`: the example batch with one
subset added. -/
theorem snapshot_restore_roundtrip_witness :
    restore (Choices.snapshot
      ((Choices.init 0 (exampleBatch.map BatchItem.tup) none .std true).1.addSubsetsSeq
        [("ODD", [.str "ONE", .str "THREE"])]).1) =
    (((Choices.init 0 (exampleBatch.map BatchItem.tup) none .std true).1.addSubsetsSeq
        [("ODD", [.str "ONE", .str "THREE"])]).1, none) :=
  snapshot_restore_roundtrip exampleBatch .std true
    [("ODD", [.str "ONE", .str "THREE"])]
    (Choices.init 0 (exampleBatch.map BatchItem.tup) none .std true).1
    ((Choices.init 0 (exampleBatch.map BatchItem.tup) none .std true).1.addSubsetsSeq
        [("ODD", [.str "ONE", .str "THREE"])]).1
    (by decide) (by decide)

/-! ## C10: equality ignores constants and attributes -/

/-- Comparing two `Choices` instances under `==` compares only their
underlying `(value, display)` lists. -/
theorem eqPy_coll_of_pairs (c1 c2 : Choices) (h : c1.d.pairs = c2.d.pairs) :
    c1.eqPy (.coll c2) = true := by
  cases hrows : c2.d.pairs with
  | nil =>
    unfold Choices.eqPy
    rw [show EqOther.rows (.coll c2) = c2.d.pairs.map (fun p => [p.1, p.2])
      from rfl, hrows]
    show decide (c1.d.pairs.map (fun p => [p.1, p.2]) = ([] : List (List PyVal))) =
      true
    rw [h, hrows]
    simp
  | cons p0 rest =>
    unfold Choices.eqPy
    rw [show EqOther.rows (.coll c2) = c2.d.pairs.map (fun p => [p.1, p.2])
      from rfl, hrows]
    show (if ([p0.1, p0.2] : List PyVal).length = 3 then
            decide (c1.d.entries.map ChoiceEntry.asTuple =
              (p0 :: rest).map (fun p => [p.1, p.2]))
          else decide (c1.d.pairs.map (fun p => [p.1, p.2]) =
              (p0 :: rest).map (fun p => [p.1, p.2]))) = true
    rw [if_neg (by simp), h, hrows]
    simp

/-- C10: two collections built from batches whose ordered
`(value, display)` projections agree compare equal under `==`, whatever
their constants, extra attributes, `dict_class`/`mutable` options, or
subsets; concretely, two one-entry collections with different constants,
different options and an extra attributes mapping on one side compare
equal. -/
theorem eq_ignores_constants_and_attrs :
    (∀ (ts1 ts2 : List (List PyVal)) (dc1 dc2 : DictClass) (m1 m2 : Bool)
       (subs1 subs2 : List (String × List PyVal)) (c01 c02 c1 c2 : Choices),
      Choices.init 0 (ts1.map BatchItem.tup) none dc1 m1 = (c01, none) →
      Choices.init 0 (ts2.map BatchItem.tup) none dc2 m2 = (c02, none) →
      c01.addSubsetsSeq subs1 = (c1, none) →
      c02.addSubsetsSeq subs2 = (c2, none) →
      ts1.map rawPair = ts2.map rawPair →
      c1.eqPy (.coll c2) = true) ∧
    (Choices.init 0 [.tup [.str "AAA", .int 1, .str "x"]] none .std true).1.eqPy
      (.coll (Choices.init 0
        [.tup [.str "BBB", .int 1, .str "x", .pymap [("extra", .i 5)]]] none
        .ordered true).1) = true := by
  constructor
  · intro ts1 ts2 dc1 dc2 m1 m2 subs1 subs2 c01 c02 c1 c2 h1 h2 hs1 hs2 hpp
    obtain ⟨d1, ks1, hconv1, hc01⟩ := init_ok_parts _ _ _ _ _ h1
    obtain ⟨d2, ks2, hconv2, hc02⟩ := init_ok_parts _ _ _ _ _ h2
    obtain ⟨es1, -, -, -, hpairs1, -, -, -, hkey1⟩ :=
      convertChoices_tups_replay _ _ _ _ hconv1
    obtain ⟨es2, -, -, -, hpairs2, -, -, -, hkey2⟩ :=
      convertChoices_tups_replay _ _ _ _ hconv2
    subst hc01
    subst hc02
    obtain ⟨-, ihpairs1, -, -, -, -, -, -⟩ :=
      addSubsetsSeq_spec subs1 _ c1
        (hkey1 (fun p hp => absurd hp (List.not_mem_nil p)))
        (fun q hq => absurd hq (List.not_mem_nil q)) hs1
    obtain ⟨-, ihpairs2, -, -, -, -, -, -⟩ :=
      addSubsetsSeq_spec subs2 _ c2
        (hkey2 (fun p hp => absurd hp (List.not_mem_nil p)))
        (fun q hq => absurd hq (List.not_mem_nil q)) hs2
    refine eqPy_coll_of_pairs c1 c2 ?_
    rw [ihpairs1, ihpairs2]
    show d1.pairs = d2.pairs
    rw [hpairs1, hpairs2]
    show ts1.map rawPair = ts2.map rawPair
    exact hpp
  · decide

/-- Witness for the universally-quantified part of
`eq_ignores_constants_and_attrs`, at two concrete one-entry batches with
different constant names. -/
theorem eq_ignores_constants_and_attrs_witness :
    ((Choices.init 0 [.tup [.str "A", .int 1, .str "x"]] none .std true).1.addSubsetsSeq
      []).1.eqPy
      (.coll ((Choices.init 0 [.tup [.str "B", .int 1, .str "x"]] none .std
        true).1.addSubsetsSeq []).1) = true :=
  eq_ignores_constants_and_attrs.1 [[.str "A", .int 1, .str "x"]]
    [[.str "B", .int 1, .str "x"]] .std .std true true [] []
    (Choices.init 0 [.tup [.str "A", .int 1, .str "x"]] none .std true).1
    (Choices.init 0 [.tup [.str "B", .int 1, .str "x"]] none .std true).1
    ((Choices.init 0 [.tup [.str "A", .int 1, .str "x"]] none .std true).1.addSubsetsSeq []).1
    ((Choices.init 0 [.tup [.str "B", .int 1, .str "x"]] none .std true).1.addSubsetsSeq []).1
    (by decide) (by decide) (by decide) (by decide) (by decide)

/-! ## C1: batch atomicity -/

theorem cleanFields_parts (c v d : PyVal) (h : cleanFields c v d = true) :
    (∃ s, c = .str s) ∧ v ≠ .pynone ∧ v.hashable = true ∧ d ≠ .pynone ∧
      d.hashable = true := by
  unfold cleanFields at h
  simp only [Bool.and_eq_true, decide_eq_true_eq] at h
  obtain ⟨⟨⟨⟨hc, hv⟩, hvh⟩, hd⟩, hdh⟩ := h
  refine ⟨?_, hv, hvh, hd, hdh⟩
  cases c
  case str s => exact ⟨s, rfl⟩
  all_goals exact Bool.noConfusion hc

theorem clean_make (t : List PyVal) (eid : Nat)
    (h : BatchItem.clean (.tup t) = true) :
    ∃ ce, ChoiceEntry.make eid t = .ok ce ∧
      cleanFields ce.constant ce.value ce.display = true := by
  rcases t with _ | ⟨c, _ | ⟨v, _ | ⟨d, _ | ⟨a, _ | ⟨x, rest⟩⟩⟩⟩⟩
  · cases h
  · cases h
  · cases h
  · have hcf : cleanFields c v d = true := h
    obtain ⟨⟨s, hs⟩, hv, hvh, hd, hdh⟩ := cleanFields_parts c v d hcf
    have hc : c ≠ .pynone := by rw [hs]; intro hh; cases hh
    refine ⟨⟨eid, c, v, d, none⟩, ?_, hcf⟩
    show ChoiceEntry.fields eid c v d none = .ok ⟨eid, c, v, d, none⟩
    exact fields_ok_of_checks eid c v d none hc hv hd
  · cases a with
    | pynone =>
      have hcf : cleanFields c v d = true := h
      obtain ⟨⟨s, hs⟩, hv, hvh, hd, hdh⟩ := cleanFields_parts c v d hcf
      have hc : c ≠ .pynone := by rw [hs]; intro hh; cases hh
      refine ⟨⟨eid, c, v, d, none⟩, ?_, hcf⟩
      show ChoiceEntry.fields eid c v d none = .ok ⟨eid, c, v, d, none⟩
      exact fields_ok_of_checks eid c v d none hc hv hd
    | pymap kvs =>
      have h2 : (!(decide (¬ kvs.isEmpty ∧ kvs.any
          (fun kv => kv.1 = "constant" ∨ kv.1 = "value" ∨ kv.1 = "display") = true)) &&
          cleanFields c v d) = true := h
      rw [Bool.and_eq_true, Bool.not_eq_true', decide_eq_false_iff_not] at h2
      obtain ⟨hnp, hcf⟩ := h2
      obtain ⟨⟨s, hs⟩, hv, hvh, hd, hdh⟩ := cleanFields_parts c v d hcf
      have hc : c ≠ .pynone := by rw [hs]; intro hh; cases hh
      refine ⟨⟨eid, c, v, d, some kvs⟩, ?_, hcf⟩
      show (if ¬ kvs.isEmpty ∧ kvs.any
              (fun kv => kv.1 = "constant" ∨ kv.1 = "value" ∨ kv.1 = "display") then
            (.error (PyErr.assertionError
              "Additional attributes cannot contain a reserved name") :
              Except PyErr ChoiceEntry)
          else ChoiceEntry.fields eid c v d (some kvs)) = .ok ⟨eid, c, v, d, some kvs⟩
      rw [if_neg hnp]
      exact fields_ok_of_checks eid c v d (some kvs) hc hv hd
    | str s => cases h
    | int n => cases h
    | pylist xs => cases h
  · cases a <;> cases h

theorem clean_addEntry (d : ChoicesData) (ce : ChoiceEntry)
    (h : cleanFields ce.constant ce.value ce.display = true) :
    ∃ d', d.addEntry ce = (d', none) := by
  obtain ⟨⟨s, hs⟩, hv, hvh, hd, hdh⟩ := cleanFields_parts _ _ _ h
  exact ⟨_, addEntry_ok d ce s hs hvh hdh⟩

theorem convertLoop_clean (items : List BatchItem) :
    ∀ d : ChoicesData, (∀ i ∈ items, i.clean = true) →
    ∃ d', d.convertLoop items = (d', none) := by
  induction items with
  | nil =>
    intro d _
    exact ⟨d, rfl⟩
  | cons item rest ih =>
    intro d hclean
    have hitem := hclean item (List.mem_cons_self item rest)
    have hrest : ∀ i ∈ rest, BatchItem.clean i = true :=
      fun i hi => hclean i (List.mem_cons_of_mem item hi)
    cases item with
    | entry ce =>
      obtain ⟨d1, h1⟩ := clean_addEntry d ce hitem
      obtain ⟨dres, hres⟩ := ih d1 hrest
      refine ⟨dres, ?_⟩
      show (match d.addEntry ce with
            | (d2, none) => d2.convertLoop rest
            | (d2, some e) => (d2, some e)) = (dres, none)
      rw [h1]
      exact hres
    | tup t =>
      obtain ⟨ce, hmk, hcf⟩ := clean_make t d.nextId hitem
      obtain ⟨d1, h1⟩ := clean_addEntry { d with nextId := d.nextId + 1 } ce hcf
      obtain ⟨dres, hres⟩ := ih d1 hrest
      refine ⟨dres, ?_⟩
      show (match ChoiceEntry.make d.nextId t with
            | .error e => (d, some e)
            | .ok ce2 =>
              match ChoicesData.addEntry { d with nextId := d.nextId + 1 } ce2 with
              | (d2, none) => d2.convertLoop rest
              | (d2, some e) => (d2, some e)) = (dres, none)
      rw [hmk]
      show (match ChoicesData.addEntry { d with nextId := d.nextId + 1 } ce with
            | (d2, none) => d2.convertLoop rest
            | (d2, some e) => (d2, some e)) = (dres, none)
      rw [h1]
      exact hres

theorem convertChoices_clean_error (d : ChoicesData) (batch : List BatchItem)
    (hclean : ∀ i ∈ batch, i.clean = true) (d' : ChoicesData) (e : PyErr)
    (h : d.convertChoices batch = (d', .error e)) :
    d' = d := by
  obtain ⟨dL, hL⟩ := convertLoop_clean batch d hclean
  unfold ChoicesData.convertChoices at h
  split at h
  · injection h with h1 h2
    exact h1.symm
  · split at h
    · injection h with h1 h2
      exact h1.symm
    · split at h
      · injection h with h1 h2
        exact h1.symm
      · split at h
        · injection h with h1 h2
          exact h1.symm
        · split at h
          · injection h with h1 h2
            cases h2
          · next d2 e2 heq =>
            rw [hL] at heq
            injection heq with hq1 hq2
            cases hq2

/-- C1 (amended): `add_choices` without a subset name is atomic on batches
of well-formed items (correct arity and attributes option, string
constant, non-null and hashable value and display): whenever the call
raises — mutability guard or any batch-level validation error — the
collection is returned exactly as it was before the call.  Without the
well-formedness restriction the claim is false, see
`add_choices_partial_application`. -/
theorem add_choices_atomicity (c : Choices) (batch : List BatchItem)
    (hclean : ∀ i ∈ batch, i.clean = true) (c' : Choices) (e : PyErr)
    (h : c.addChoices none batch none = (c', some e)) :
    c' = c := by
  unfold Choices.addChoices at h
  split at h
  · injection h with h1 h2
    exact h1.symm
  · have h' :
        (match c.d.convertChoices batch with
         | (d1, .error e1) => (({ c with d := d1 } : Choices), some e1)
         | (d1, .ok _) => (({ c with d := d1 } : Choices), (none : Option PyErr))) =
        (c', some e) := h
    split at h'
    · next d1 e1 heq =>
      have hd : d1 = c.d := convertChoices_clean_error c.d batch hclean d1 e1 heq
      injection h' with h1 h2
      rw [← h1, hd]
    · injection h' with h1 h2
      cases h2

/-- Counterexample to the literal C1: a batch whose second tuple carries a
`None` value raises, yet the first tuple stays registered (one entry
added, the collection differs from the original); likewise a subset-name
conflict surfacing after conversion leaves the converted entries in
place. -/
theorem add_choices_partial_application :
    ((Choices.init 0 [] none .std true).1.addChoices none
        [.tup [.str "A", .int 10, .str "a"], .tup [.str "B", .pynone, .str "b"]]
        none).2 =
      some (PyErr.valueError "Using `None` in a `Choices` object is not supported") ∧
    ((Choices.init 0 [] none .std true).1.addChoices none
        [.tup [.str "A", .int 10, .str "a"], .tup [.str "B", .pynone, .str "b"]]
        none).1.d.entries.length = 1 ∧
    ((Choices.init 0 [] none .std true).1.addChoices none
        [.tup [.str "A", .int 10, .str "a"], .tup [.str "B", .pynone, .str "b"]]
        none).1 ≠ (Choices.init 0 [] none .std true).1 ∧
    ((Choices.init 0 [] none .std true).1.addChoices none
        [.tup [.str "C", .int 1, .str "c"]] (some "entries")).2 =
      some (PyErr.valueError
        "Cannot use this as a subset name. It is already an attribute") ∧
    ((Choices.init 0 [] none .std true).1.addChoices none
        [.tup [.str "C", .int 1, .str "c"]] (some "entries")).1.d.entries.length =
      1 := by
  refine ⟨?_, ?_, ?_, ?_, ?_⟩ <;> decide

/-- Witness for `add_choices_atomicity`: adding an already-existing
constant to a concrete collection raises and returns the collection
unchanged. -/
theorem add_choices_atomicity_witness :
    ((Choices.init 0 [.tup [.str "A", .int 1, .str "a"]] none .std true).1.addChoices
        none [.tup [.str "A", .int 2, .str "b"]] none).1 =
      (Choices.init 0 [.tup [.str "A", .int 1, .str "a"]] none .std true).1 :=
  add_choices_atomicity
    (Choices.init 0 [.tup [.str "A", .int 1, .str "a"]] none .std true).1
    [.tup [.str "A", .int 2, .str "b"]]
    (by decide)
    ((Choices.init 0 [.tup [.str "A", .int 1, .str "a"]] none .std true).1.addChoices
        none [.tup [.str "A", .int 2, .str "b"]] none).1
    (PyErr.valueError "You cannot add existing constants")
    (by decide)

/-! ## Check-outcome lemmas -/

theorem filter_dup_ne_nil (xs : List PyVal) (h : ¬ xs.Nodup) :
    (xs.filter (fun c => pyCount xs c > 1)) ≠ [] := by
  rw [ne_eq, filter_dup_eq_nil_iff_nodup]
  exact h

theorem constantChecks_dup (d : ChoicesData) (cs : List PyVal)
    (h : ¬ cs.Nodup) :
    d.constantChecks cs = some (PyErr.valueError
      "You cannot declare two constants with the same constant name") := by
  unfold ChoicesData.constantChecks
  rw [if_pos (filter_dup_ne_nil cs h)]

theorem all_str_hashable (cs : List PyVal)
    (hstr : ∀ c ∈ cs, ∃ s, c = PyVal.str s) :
    (cs.any (fun c => ¬ c.hashable)) = false := by
  rw [Bool.eq_false_iff, ne_eq, List.any_eq_true]
  intro ⟨c, hc, hh⟩
  obtain ⟨s, rfl⟩ := hstr c hc
  simp [PyVal.hashable] at hh

theorem constantChecks_existing (d : ChoicesData) (cs : List PyVal)
    (hnodup : cs.Nodup) (hstr : ∀ c ∈ cs, ∃ s, c = PyVal.str s)
    (hex : ∃ c ∈ cs, (assocGet d.constants c).isSome) :
    d.constantChecks cs = some (PyErr.valueError
      "You cannot add existing constants") := by
  unfold ChoicesData.constantChecks
  rw [if_neg (by rw [ne_eq, not_not]; exact (filter_dup_eq_nil_iff_nodup cs).2 hnodup)]
  rw [all_str_hashable cs hstr]
  rw [if_neg (by simp)]
  rw [if_pos (by
    obtain ⟨c, hc, hex⟩ := hex
    intro hcontra
    have : c ∈ cs.filter (fun c => (assocGet d.constants c).isSome) :=
      List.mem_filter.2 ⟨hc, hex⟩
    rw [hcontra] at this
    cases this)]

theorem constantChecks_attr (d : ChoicesData) (cs : List PyVal)
    (hnodup : cs.Nodup) (hstr : ∀ c ∈ cs, ∃ s, c = PyVal.str s)
    (hnone : ∀ c ∈ cs, assocGet d.constants c = none)
    (hattr : ∃ s, PyVal.str s ∈ cs ∧ d.attrNames.contains s = true) :
    d.constantChecks cs = some (PyErr.valueError
      "You cannot add constants that already exists as attributes") := by
  unfold ChoicesData.constantChecks
  rw [if_neg (by rw [ne_eq, not_not]; exact (filter_dup_eq_nil_iff_nodup cs).2 hnodup)]
  rw [all_str_hashable cs hstr]
  rw [if_neg (by simp)]
  rw [if_neg (by
    rw [ne_eq, not_not, List.filter_eq_nil_iff]
    intro c hc
    simp [hnone c hc])]
  rw [if_neg (by
    rw [Bool.not_eq_true, Bool.eq_false_iff, ne_eq, List.any_eq_true]
    intro ⟨c, hc, hh⟩
    obtain ⟨s, rfl⟩ := hstr c hc
    simp at hh)]
  rw [if_pos (by
    obtain ⟨s, hs, hcontains⟩ := hattr
    intro hcontra
    have : PyVal.str s ∈ cs.filter
        (fun c => match c with | .str s => d.attrNames.contains s | _ => false) := by
      rw [List.mem_filter]
      exact ⟨hs, hcontains⟩
    rw [hcontra] at this
    cases this)]

theorem valueChecks_dup (d : ChoicesData) (vs : List PyVal)
    (h : ¬ vs.Nodup) :
    d.valueChecks vs = some (PyErr.valueError
      "You cannot declare two choices with the same name") := by
  unfold ChoicesData.valueChecks
  rw [if_pos (filter_dup_ne_nil vs h)]

theorem valueChecks_unhashable (d : ChoicesData) (vs : List PyVal)
    (hnodup : vs.Nodup) (hex : ∃ v ∈ vs, v.hashable = false) :
    d.valueChecks vs = some (PyErr.valueError "One value cannot be used in") := by
  unfold ChoicesData.valueChecks
  rw [if_neg (by rw [ne_eq, not_not]; exact (filter_dup_eq_nil_iff_nodup vs).2 hnodup)]
  rw [if_pos (by
    rw [List.any_eq_true]
    obtain ⟨v, hv, hh⟩ := hex
    exact ⟨v, hv, by simp [hh]⟩)]

theorem valueChecks_existing (d : ChoicesData) (vs : List PyVal)
    (hnodup : vs.Nodup) (hhash : ∀ v ∈ vs, v.hashable = true)
    (hex : ∃ v ∈ vs, (assocGet d.values v).isSome) :
    d.valueChecks vs = some (PyErr.valueError "You cannot add existing values") := by
  unfold ChoicesData.valueChecks
  rw [if_neg (by rw [ne_eq, not_not]; exact (filter_dup_eq_nil_iff_nodup vs).2 hnodup)]
  rw [if_neg (by
    rw [Bool.not_eq_true, Bool.eq_false_iff, ne_eq, List.any_eq_true]
    intro ⟨v, hv, hh⟩
    rw [hhash v hv] at hh
    simp at hh)]
  rw [if_pos (by
    obtain ⟨v, hv, hvs⟩ := hex
    intro hcontra
    have : v ∈ vs.filter (fun v => (assocGet d.values v).isSome) :=
      List.mem_filter.2 ⟨hv, hvs⟩
    rw [hcontra] at this
    cases this)]

/-- An error from the constant-level checks is the result of
`_convert_choices`, with the state unchanged. -/
theorem convertChoices_error_of_constantChecks (d : ChoicesData)
    (batch : List BatchItem) (constants : List PyVal) (e : PyErr)
    (hf : batchFirsts batch = .ok constants)
    (hc : d.constantChecks constants = some e) :
    d.convertChoices batch = (d, .error e) := by
  unfold ChoicesData.convertChoices
  split
  · next e' heq => rw [hf] at heq; cases heq
  · next cs heq =>
    rw [hf] at heq
    injection heq with hcs
    subst hcs
    split
    · next e' heq2 =>
      rw [hc] at heq2
      injection heq2 with he
      subst he
      rfl
    · next heq2 => rw [hc] at heq2; cases heq2

/-- An error from the value-level checks is the result of
`_convert_choices`, with the state unchanged. -/
theorem convertChoices_error_of_valueChecks (d : ChoicesData)
    (batch : List BatchItem) (constants values : List PyVal) (e : PyErr)
    (hf : batchFirsts batch = .ok constants)
    (hc : d.constantChecks constants = none)
    (hs : batchSeconds batch = .ok values)
    (hv : d.valueChecks values = some e) :
    d.convertChoices batch = (d, .error e) := by
  unfold ChoicesData.convertChoices
  split
  · next e' heq => rw [hf] at heq; cases heq
  · next cs heq =>
    rw [hf] at heq
    injection heq with hcs
    subst hcs
    split
    · next e' heq2 => rw [hc] at heq2; cases heq2
    · split
      · next e' heq3 => rw [hs] at heq3; cases heq3
      · next vs heq3 =>
        rw [hs] at heq3
        injection heq3 with hvs
        subst hvs
        split
        · next e' heq4 =>
          rw [hv] at heq4
          injection heq4 with he
          subst he
          rfl
        · next heq4 => rw [hv] at heq4; cases heq4

/-! ## C5: validation order and error kinds -/

/-- C5: the construction-time checks run in the source order — (1)
duplicate constants within the batch, (2) a new constant equals an
existing constant, (3) a new constant equals an existing attribute name,
(4) duplicate values within the batch, (5) a new value equals an existing
value — so each error is raised exactly when its condition holds and every
earlier check passes, with the collection left unchanged; a non-hashable
stored value fails with the dedicated unhashable-value error (between
checks 4 and 5, where `set(values)` is built); and in particular the batch
`('A', 1, 'a'), ('B', 1, 'b')` raises the duplicate-value error. -/
theorem validation_order_and_kinds :
    (∀ (d : ChoicesData) (batch : List BatchItem) (constants : List PyVal),
      batchFirsts batch = .ok constants → ¬ constants.Nodup →
      d.convertChoices batch = (d, .error (PyErr.valueError
        "You cannot declare two constants with the same constant name"))) ∧
    (∀ (d : ChoicesData) (batch : List BatchItem) (constants : List PyVal),
      batchFirsts batch = .ok constants → constants.Nodup →
      (∀ c ∈ constants, ∃ s, c = PyVal.str s) →
      (∃ c ∈ constants, (assocGet d.constants c).isSome) →
      d.convertChoices batch = (d, .error (PyErr.valueError
        "You cannot add existing constants"))) ∧
    (∀ (d : ChoicesData) (batch : List BatchItem) (constants : List PyVal),
      batchFirsts batch = .ok constants → constants.Nodup →
      (∀ c ∈ constants, ∃ s, c = PyVal.str s) →
      (∀ c ∈ constants, assocGet d.constants c = none) →
      (∃ s, PyVal.str s ∈ constants ∧ d.attrNames.contains s = true) →
      d.convertChoices batch = (d, .error (PyErr.valueError
        "You cannot add constants that already exists as attributes"))) ∧
    (∀ (d : ChoicesData) (batch : List BatchItem) (constants values : List PyVal),
      batchFirsts batch = .ok constants → constants.Nodup →
      (∀ c ∈ constants, ∃ s, c = PyVal.str s ∧ d.attrNames.contains s = false) →
      (∀ c ∈ constants, assocGet d.constants c = none) →
      batchSeconds batch = .ok values → ¬ values.Nodup →
      d.convertChoices batch = (d, .error (PyErr.valueError
        "You cannot declare two choices with the same name"))) ∧
    (∀ (d : ChoicesData) (batch : List BatchItem) (constants values : List PyVal),
      batchFirsts batch = .ok constants → constants.Nodup →
      (∀ c ∈ constants, ∃ s, c = PyVal.str s ∧ d.attrNames.contains s = false) →
      (∀ c ∈ constants, assocGet d.constants c = none) →
      batchSeconds batch = .ok values → values.Nodup →
      (∃ v ∈ values, v.hashable = false) →
      d.convertChoices batch = (d, .error (PyErr.valueError
        "One value cannot be used in"))) ∧
    (∀ (d : ChoicesData) (batch : List BatchItem) (constants values : List PyVal),
      batchFirsts batch = .ok constants → constants.Nodup →
      (∀ c ∈ constants, ∃ s, c = PyVal.str s ∧ d.attrNames.contains s = false) →
      (∀ c ∈ constants, assocGet d.constants c = none) →
      batchSeconds batch = .ok values → values.Nodup →
      (∀ v ∈ values, v.hashable = true) →
      (∃ v ∈ values, (assocGet d.values v).isSome) →
      d.convertChoices batch = (d, .error (PyErr.valueError
        "You cannot add existing values"))) ∧
    (Choices.init 0 [.tup [.str "A", .int 1, .str "a"],
        .tup [.str "B", .int 1, .str "b"]] none .std true).2 =
      some (PyErr.valueError "You cannot declare two choices with the same name") := by
  refine ⟨?_, ?_, ?_, ?_, ?_, ?_, by decide⟩
  · intro d batch constants hf hdup
    exact convertChoices_error_of_constantChecks d batch constants _ hf
      (constantChecks_dup d constants hdup)
  · intro d batch constants hf hnodup hstr hex
    exact convertChoices_error_of_constantChecks d batch constants _ hf
      (constantChecks_existing d constants hnodup hstr hex)
  · intro d batch constants hf hnodup hstr hnone hattr
    exact convertChoices_error_of_constantChecks d batch constants _ hf
      (constantChecks_attr d constants hnodup hstr hnone hattr)
  · intro d batch constants values hf hnodup hstr hnone hs hdup
    refine convertChoices_error_of_valueChecks d batch constants values _ hf
      ?_ hs (valueChecks_dup d values hdup)
    exact constantChecks_none d constants hnodup
      (fun c hc => (hstr c hc).imp (fun s hs' => ⟨hs'.1, hs'.2⟩))
      hnone
  · intro d batch constants values hf hnodup hstr hnone hs hvnodup hex
    refine convertChoices_error_of_valueChecks d batch constants values _ hf
      ?_ hs (valueChecks_unhashable d values hvnodup hex)
    exact constantChecks_none d constants hnodup
      (fun c hc => (hstr c hc).imp (fun s hs' => ⟨hs'.1, hs'.2⟩))
      hnone
  · intro d batch constants values hf hnodup hstr hnone hs hvnodup hhash hex
    refine convertChoices_error_of_valueChecks d batch constants values _ hf
      ?_ hs (valueChecks_existing d values hvnodup hhash hex)
    exact constantChecks_none d constants hnodup
      (fun c hc => (hstr c hc).imp (fun s hs' => ⟨hs'.1, hs'.2⟩))
      hnone

/-- Witness for `validation_order_and_kinds`: concrete applications of the
duplicate-constant, unhashable-value and existing-value conjuncts. -/
theorem validation_order_and_kinds_witness :
    exampleC.d.convertChoices [.tup [.str "X", .int 7, .str "x"],
        .tup [.str "X", .int 8, .str "y"]] =
      (exampleC.d, .error (PyErr.valueError
        "You cannot declare two constants with the same constant name")) ∧
    exampleC.d.convertChoices [.tup [.str "X", .pylist [], .str "x"]] =
      (exampleC.d, .error (PyErr.valueError "One value cannot be used in")) ∧
    exampleC.d.convertChoices [.tup [.str "X", .int 1, .str "x"]] =
      (exampleC.d, .error (PyErr.valueError "You cannot add existing values")) := by
  have hstrX : ∀ c ∈ [PyVal.str "X"],
      ∃ s, c = PyVal.str s ∧ exampleC.d.attrNames.contains s = false := by
    intro c hc
    rw [List.mem_singleton] at hc
    subst hc
    exact ⟨"X", rfl, by decide⟩
  refine ⟨?_, ?_, ?_⟩
  · exact validation_order_and_kinds.1 exampleC.d _
      [.str "X", .str "X"] rfl (by decide)
  · exact validation_order_and_kinds.2.2.2.2.1 exampleC.d _
      [.str "X"] [.pylist []] rfl (by decide)
      hstrX (by decide) rfl (by decide)
      ⟨.pylist [], by decide, by decide⟩
  · exact validation_order_and_kinds.2.2.2.2.2.1 exampleC.d _
      [.str "X"] [.int 1] rfl (by decide)
      hstrX (by decide) rfl (by decide) (by decide)
      ⟨.int 1, by decide, by decide⟩

/-! ## C6: auto-derivation defaults -/

/-- C6: in the auto-generating variants, a shorthand with no display gets
the display transform applied to its constant (`AutoDisplayChoices`
normalization, both without and with a trailing attributes mapping), and a
shorthand with no stored value (or an explicit `None` one) gets the value
transform applied to its constant (`AutoChoices` normalization); with the
default transforms, the constant `CHAOTIC_GOOD` with neither an explicit
value nor an explicit display yields the stored value `chaotic_good`
(lower-casing, underscores kept) and the display `Chaotic good`
(lower-cased, underscores to spaces, then capitalized). -/
theorem auto_derivation_defaults :
    (∀ (dT : String → String) (k : String) (v : PyVal),
      adNormalize dT [.str k, v] = .ok [.str k, v, .str (dT k)]) ∧
    (∀ (dT : String → String) (k : String) (v : PyVal)
        (kvs : List (String × PyScalar)),
      adNormalize dT [.str k, v, .pymap kvs] =
        .ok [.str k, v, .str (dT k), .pymap kvs]) ∧
    (∀ (vT : String → String) (k : String),
      acNormalize vT [.str k] = .ok [.str k, .str (vT k)]) ∧
    (∀ (vT : String → String) (k : String) (dsp : PyVal),
      dsp.isMapping = false →
      acNormalize vT [.str k, .pynone, dsp] = .ok [.str k, .str (vT k), dsp]) ∧
    ((ChoicesData.empty .ordered 0).acConvertChoices valueTransformDefault
        displayTransformDefault [.strItem "CHAOTIC_GOOD"]).1.entries =
      [{ eid := 0, constant := .str "CHAOTIC_GOOD", value := .str "chaotic_good",
         display := .str "Chaotic good", attributes := none }] ∧
    valueTransformDefault "CHAOTIC_GOOD" = "chaotic_good" ∧
    displayTransformDefault "CHAOTIC_GOOD" = "Chaotic good" := by
  refine ⟨fun dT k v => rfl, fun dT k v kvs => rfl, fun vT k => rfl, ?_,
    by decide, by decide, by decide⟩
  intro vT k dsp hdsp
  unfold acNormalize
  rw [if_neg (by simp)]
  simp only [List.length_cons, List.length_nil]
  rw [if_neg (by
    rw [not_and]
    intro _
    rw [show ([PyVal.str k, .pynone, dsp].getLastD .pynone) = dsp from rfl, hdsp]
    simp)]
  rw [if_neg (by omega)]
  rfl

/-- Witness for `auto_derivation_defaults`: the hypothesis-bearing
conjunct applied to a concrete non-mapping display. -/
theorem auto_derivation_defaults_witness :
    acNormalize valueTransformDefault
        [.str "GOOD", .pynone, .str "Yeah"] =
      .ok [.str "GOOD", .str (valueTransformDefault "GOOD"), .str "Yeah"] :=
  auto_derivation_defaults.2.2.2.1 valueTransformDefault "GOOD" (.str "Yeah")
    (by decide)

/-! ## C8: equality with plain sequences -/

/-- C8: a collection equals (under `==`) a list or tuple of 3-tuples
exactly when that sequence equals its entries (as plain
`(constant, value, display)` tuples) in the same order, and equals a list
or tuple of 2-tuples exactly when that sequence equals its
`(value, display)` sequence in the same order; in particular the example
collection equals both of its tuple renderings.  (Python inspects
`other[0]` for the 3-tuple reading, so that reading needs a non-empty
sequence; the empty sequence is covered by the 2-tuple reading.) -/
theorem eq_with_plain_sequences :
    (∀ (c : Choices) (rows : List (List PyVal)), rows ≠ [] →
      (∀ r ∈ rows, r.length = 3) →
      ((c.eqPy (.pyList rows) = true ↔ c.d.entries.map ChoiceEntry.asTuple = rows) ∧
       c.eqPy (.pyTuple rows) = c.eqPy (.pyList rows))) ∧
    (∀ (c : Choices) (rows : List (List PyVal)),
      (∀ r ∈ rows, r.length = 2) →
      ((c.eqPy (.pyList rows) = true ↔
        c.d.pairs.map (fun p => [p.1, p.2]) = rows) ∧
       c.eqPy (.pyTuple rows) = c.eqPy (.pyList rows))) ∧
    exampleC.eqPy (.pyTuple
      [[.int 1, .str "One"], [.int 2, .str "Two"], [.int 3, .str "Three"]]) = true ∧
    exampleC.eqPy (.pyTuple
      [[.str "ONE", .int 1, .str "One"], [.str "TWO", .int 2, .str "Two"],
       [.str "THREE", .int 3, .str "Three"]]) = true := by
  refine ⟨?_, ?_, by decide, by decide⟩
  · intro c rows hne h3
    refine ⟨?_, rfl⟩
    cases rows with
    | nil => cases hne rfl
    | cons r0 rest =>
      show (if r0.length = 3 then
              decide (c.d.entries.map ChoiceEntry.asTuple = r0 :: rest)
            else decide (c.d.pairs.map (fun p => [p.1, p.2]) = r0 :: rest)) =
          true ↔ _
      rw [if_pos (h3 r0 (List.mem_cons_self _ _))]
      exact decide_eq_true_iff
  · intro c rows h2
    refine ⟨?_, rfl⟩
    cases rows with
    | nil =>
      show decide (c.d.pairs.map (fun p => [p.1, p.2]) = ([] : List (List PyVal))) =
          true ↔ _
      exact decide_eq_true_iff
    | cons r0 rest =>
      show (if r0.length = 3 then
              decide (c.d.entries.map ChoiceEntry.asTuple = r0 :: rest)
            else decide (c.d.pairs.map (fun p => [p.1, p.2]) = r0 :: rest)) =
          true ↔ _
      rw [if_neg (by rw [h2 r0 (List.mem_cons_self _ _)]; omega)]
      exact decide_eq_true_iff

/-- Witness for `eq_with_plain_sequences` at the example collection and
its two renderings. -/
theorem eq_with_plain_sequences_witness :
    ((exampleC.eqPy (.pyList
        [[.str "ONE", .int 1, .str "One"], [.str "TWO", .int 2, .str "Two"],
         [.str "THREE", .int 3, .str "Three"]]) = true ↔
      exampleC.d.entries.map ChoiceEntry.asTuple =
        [[.str "ONE", .int 1, .str "One"], [.str "TWO", .int 2, .str "Two"],
         [.str "THREE", .int 3, .str "Three"]]) ∧
     exampleC.eqPy (.pyTuple
        [[.str "ONE", .int 1, .str "One"], [.str "TWO", .int 2, .str "Two"],
         [.str "THREE", .int 3, .str "Three"]]) =
       exampleC.eqPy (.pyList
        [[.str "ONE", .int 1, .str "One"], [.str "TWO", .int 2, .str "Two"],
         [.str "THREE", .int 3, .str "Three"]])) ∧
    ((exampleC.eqPy (.pyList [[.int 1, .str "One"], [.int 2, .str "Two"],
        [.int 3, .str "Three"]]) = true ↔
      exampleC.d.pairs.map (fun p => [p.1, p.2]) =
        [[.int 1, .str "One"], [.int 2, .str "Two"], [.int 3, .str "Three"]]) ∧
     exampleC.eqPy (.pyTuple [[.int 1, .str "One"], [.int 2, .str "Two"],
        [.int 3, .str "Three"]]) =
       exampleC.eqPy (.pyList [[.int 1, .str "One"], [.int 2, .str "Two"],
        [.int 3, .str "Three"]])) :=
  ⟨eq_with_plain_sequences.1 exampleC _ (by decide) (by decide),
   eq_with_plain_sequences.2.1 exampleC _ (by decide)⟩

/-! ## C7: form-field constant resolution -/

/-- C7 (counterexample to the claim as stated): `"entries"` is not a
constant of the example collection, yet `to_python("entries")` does not
raise the `non-existing-choice` validation failure — the implementation
resolves the input with `getattr`, which finds the bookkeeping attribute
`entries` and returns it. -/
theorem to_python_attribute_leak :
    assocGet exampleC.d.constants (.str "entries") = none ∧
    toPython exampleC (.strv "entries") = .ok (some (.base "entries")) := by
  exact ⟨rfl, rfl⟩

/-- C7 (amended): for every collection-backed field and non-null input:
a non-string input raises the validation failure with code
`invalid-choice-type`; a string input that is not an attribute of the
collection (neither a constant, nor a subset name, nor a base bookkeeping
attribute) raises the validation failure with code `non-existing-choice`;
a string input naming a constant resolves, without error, to that
constant's stored value.  (A string naming any other existing attribute is
returned as that attribute, without a validation failure — the
counterexample above.) -/
theorem to_python_resolution :
    (∀ (c : Choices) (v : PyVal),
      toPython c (.nonStr v) = .error (PyErr.validationError "invalid-choice-type")) ∧
    (∀ (c : Choices) (s : String), c.getattrPy s = none →
      toPython c (.strv s) = .error (PyErr.validationError "non-existing-choice")) ∧
    (∀ (c : Choices) (s : String) (e : ChoiceEntry),
      assocGet c.d.constants (.str s) = some e →
      toPython c (.strv s) = .ok (some (.choiceValue e.value))) := by
  refine ⟨fun c v => rfl, ?_, ?_⟩
  · intro c s hnone
    show (match c.getattrPy s with
          | some a => Except.ok (some a)
          | none =>
            (.error (PyErr.validationError "non-existing-choice") :
              Except PyErr (Option AttrVal))) = _
    rw [hnone]
  · intro c s e hget
    show (match c.getattrPy s with
          | some a => Except.ok (some a)
          | none =>
            (.error (PyErr.validationError "non-existing-choice") :
              Except PyErr (Option AttrVal))) = _
    unfold Choices.getattrPy
    rw [hget]

/-- Witness for `to_python_resolution` at the example collection: a
non-string input, an unknown constant, and the constant `ONE`. -/
theorem to_python_resolution_witness :
    toPython exampleC (.nonStr (.int 1)) =
      .error (PyErr.validationError "invalid-choice-type") ∧
    toPython exampleC (.strv "FOUR") =
      .error (PyErr.validationError "non-existing-choice") ∧
    toPython exampleC (.strv "ONE") = .ok (some (.choiceValue (.int 1))) := by
  refine ⟨to_python_resolution.1 exampleC (.int 1),
    to_python_resolution.2.1 exampleC "FOUR" (by decide), ?_⟩
  have := to_python_resolution.2.2 exampleC "ONE"
    { eid := 0, constant := .str "ONE", value := .int 1, display := .str "One",
      attributes := none } (by decide)
  exact this

/-! ## C9: lookup consistency -/

/-- C9: for every collection state and hashable value `v`, `has_value v`
is `True` exactly when `for_value v` succeeds (and then the returned entry
stores `v`, using the construction invariant that the `values` dict maps
each key to an entry carrying it), and the membership test
(`__contains__`) returns exactly the same boolean as `has_value`. -/
theorem lookup_consistency (d : ChoicesData) (v : PyVal)
    (hv : v.hashable = true) (hinv : d.Inv) :
    (d.has_value v = .ok true ↔ ∃ e, d.for_value v = .ok e) ∧
    (∀ e, d.for_value v = .ok e → e.value = v) ∧
    d.containsPy v = d.has_value v := by
  refine ⟨?_, ?_, rfl⟩
  · unfold ChoicesData.has_value ChoicesData.for_value
    rw [if_pos hv, if_pos hv]
    cases hg : assocGet d.values v with
    | none => simp
    | some e => simp
  · intro e he
    unfold ChoicesData.for_value at he
    rw [if_pos hv] at he
    cases hg : assocGet d.values v with
    | none => rw [hg] at he; cases he
    | some e' =>
      rw [hg] at he
      injection he with he'
      subst he'
      exact hinv.2 (v, e') (assocGet_mem _ _ _ hg)

/-- Witness for `lookup_consistency` at the example collection and the
stored value `2`. -/
theorem lookup_consistency_witness :
    (exampleC.d.has_value (.int 2) = .ok true ↔
      ∃ e, exampleC.d.for_value (.int 2) = .ok e) ∧
    (∀ e, exampleC.d.for_value (.int 2) = .ok e → e.value = .int 2) ∧
    exampleC.d.containsPy (.int 2) = exampleC.d.has_value (.int 2) :=
  lookup_consistency exampleC.d (.int 2) (by decide) (by decide)

/-! ## C3: subset extraction -/

/-- C3 (counterexample to the claim as stated): the claim quantifies over
every list of names all of which are constants of the collection, but a
list that repeats a constant makes `extract_subset` raise the
duplicate-constant error instead of producing the subset: both occurrences
of `ONE` are constants of the example collection, yet extraction fails. -/
theorem extract_subset_duplicate_names_fail :
    (assocGet exampleC.d.constants (.str "ONE")).isSome = true ∧
    exampleC.d.extractSubset [.str "ONE", .str "ONE"] =
      .error (PyErr.valueError
        "You cannot declare two constants with the same constant name") := by
  exact ⟨rfl, rfl⟩

/-- C3 (amended): for every collection (any state satisfying the
construction invariants) and every list of pairwise-distinct names all of
which are constants of the collection, `extract_subset` succeeds and
returns an immutable collection whose entries are exactly the parent's
entries for those names, in the given order, with per-name lookups
returning the parent's entry itself (model equality includes the
object-identity id); if every requested name is hashable but some name is
not a constant, `extract_subset` raises the missing-constants error (and,
being a pure function of the parent, creates nothing and leaves the
parent unchanged); and if some requested name is unhashable (e.g. a
list), the `set(constants)` construction raises `TypeError` before the
missing-constants check is reached. -/
theorem extract_subset_shares_entries :
    (∀ (d : ChoicesData) (names : List PyVal), d.Inv → names.Nodup →
      (∀ n ∈ names, (assocGet d.constants n).isSome) →
      ∃ sub, d.extractSubset names = .ok sub ∧ sub.mutable = false ∧
        sub.entries = names.filterMap (fun n => assocGet d.constants n) ∧
        (∀ n ∈ names, sub.for_constant n = d.for_constant n)) ∧
    (∀ (d : ChoicesData) (names : List PyVal) (n : PyVal), n ∈ names →
      (∀ m ∈ names, m.hashable = true) →
      assocGet d.constants n = none →
      d.extractSubset names = .error (PyErr.valueError
        "All constants in subsets should be in parent choice. Missing constants")) ∧
    (∀ (d : ChoicesData) (names : List PyVal) (n : PyVal), n ∈ names →
      n.hashable = false →
      d.extractSubset names = .error (PyErr.typeError "unhashable type")) := by
  refine ⟨?_, ?_, ?_⟩
  · intro d names hinv hnodup hmem
    exact extractSubset_ok_spec d names hinv hnodup hmem
  · intro d names n hn hallhash hnone
    unfold ChoicesData.extractSubset
    rw [if_neg ?hga, if_pos]
    case hga =>
      rw [List.any_eq_true]
      rintro ⟨m, hm, hbad⟩
      have := hallhash m hm
      simp [this] at hbad
    intro hcontra
    have : n ∈ names.filter (fun c => (assocGet d.constants c).isNone) := by
      rw [List.mem_filter]
      exact ⟨hn, by simp [hnone]⟩
    rw [hcontra] at this
    cases this
  · intro d names n hn hun
    unfold ChoicesData.extractSubset
    rw [if_pos]
    rw [List.any_eq_true]
    exact ⟨n, hn, by simp [hun]⟩

/-- Witness for `extract_subset_shares_entries`, at the example collection
with names `('ONE', 'THREE')` (success part), `('QUX')` (missing-constant
part) and an unhashable list name (`TypeError` part). -/
theorem extract_subset_shares_entries_witness :
    (∃ sub, exampleC.d.extractSubset [.str "ONE", .str "THREE"] = .ok sub ∧
      sub.mutable = false ∧
      sub.entries = [PyVal.str "ONE", PyVal.str "THREE"].filterMap
        (fun n => assocGet exampleC.d.constants n) ∧
      (∀ n ∈ [PyVal.str "ONE", PyVal.str "THREE"],
        sub.for_constant n = exampleC.d.for_constant n)) ∧
    exampleC.d.extractSubset [.str "QUX"] =
      .error (PyErr.valueError
        "All constants in subsets should be in parent choice. Missing constants") ∧
    exampleC.d.extractSubset [.pylist [.s "ONE", .s "THREE"]] =
      .error (PyErr.typeError "unhashable type") := by
  refine ⟨?_, ?_, ?_⟩
  · exact extract_subset_shares_entries.1 exampleC.d
      [.str "ONE", .str "THREE"] (by decide) (by decide) (by decide)
  · exact extract_subset_shares_entries.2.1 exampleC.d [.str "QUX"] (.str "QUX")
      (by decide) (by decide) (by decide)
  · exact extract_subset_shares_entries.2.2 exampleC.d
      [.pylist [.s "ONE", .s "THREE"]] (.pylist [.s "ONE", .s "THREE"])
      (by decide) (by decide)

/-- Any successfully extracted subset carries `_mutable = False`. -/
theorem extractSubset_immutable (parent : ChoicesData) (cs : List PyVal)
    (sub : ChoicesData) (h : parent.extractSubset cs = .ok sub) :
    sub.mutable = false := by
  unfold ChoicesData.extractSubset at h
  split at h
  · simp at h
  split at h
  · simp at h
  · simp only [] at h
    split at h
    · simp only [Except.ok.injEq] at h
      subst h
      rfl
    · simp at h

/-- C4: for every subset `S` of any collection (anything produced by
`extract_subset`) and every argument list, `S.add_choices(...)` raises the
immutable-collection error (`RuntimeError`) immediately, before any
validation or subset-name processing, and `S` is left unchanged. -/
theorem subset_add_choices_raises_immutable
    (parent : ChoicesData) (cs : List PyVal) (sub : ChoicesData)
    (h : parent.extractSubset cs = .ok sub)
    (nameFirst nameKw : Option String) (batch : List BatchItem) :
    (Choices.ofData sub).addChoices nameFirst batch nameKw =
      (Choices.ofData sub,
       some (PyErr.runtimeError "This Choices instance cannot be updated")) := by
  have hmut := extractSubset_immutable parent cs sub h
  unfold Choices.addChoices
  simp [Choices.ofData, hmut]

/-- Witness for `subset_add_choices_raises_immutable` at a concrete subset
and argument list. -/
theorem subset_add_choices_raises_immutable_witness :
    (Choices.ofData exampleSub).addChoices none
        [BatchItem.tup [.str "FOUR", .int 4, .str "Four"]] none =
      (Choices.ofData exampleSub,
       some (PyErr.runtimeError "This Choices instance cannot be updated")) :=
  subset_add_choices_raises_immutable exampleC.d [.str "ONE", .str "THREE"]
    exampleSub (by rfl) none none [BatchItem.tup [.str "FOUR", .int 4, .str "Four"]]

end ExtendedChoices
